import Mathlib

/-!
Shallow embedding of `spanner-tools/spanner-split-mgr/range_utils.py` (and the
parts of `models.py` it uses).

Conventions of the embedding:
* Python `str` values are modelled as `List Char` (ASCII fragment of Unicode;
  every string handled by the verified functions is ASCII).
* Python's `int` is modelled by `Int` / `Nat` (arbitrary precision, as in
  Python).
* The real-valued division used to compute interpolation steps
  (`step = (end - start) / k` followed by `int(step * i)`) is modelled
  exactly: `int(step * i)` becomes `(d * i) / k` in natural-number floor
  division, i.e. the float arithmetic is treated as exact real arithmetic.
  All quantities fed to it are nonnegative, where Python's `int()`
  truncation coincides with the floor.
* Code that raises `ValueError` is modelled with `Except String` /
  `Option`, carrying the message the Python code would raise.
* `uuid.UUID(hex=s)` from the Python standard library (called by
  `uuid_to_int`) is modelled faithfully for ASCII inputs: it removes every
  occurrence of `urn:` and `uuid:`, strips curly braces from both ends,
  removes every dash, requires exactly 32 remaining characters, and parses
  them with `int(h, 16)` (which itself strips surrounding whitespace and
  accepts an optional sign, an optional `0x` prefix, and single underscores
  between digits), finally range-checking the value against `2^128`.
* `str.lower()` / `str.upper()` are modelled by `Char.toLower` /
  `Char.toUpper` mapped over the characters (the ASCII case maps, which
  agree with Python on every string these functions touch).
-/

/-- Decidable equality for `Except`, used to evaluate the generators on
concrete inputs. -/
def exceptDecEq {ε α : Type} [DecidableEq ε] [DecidableEq α] :
    DecidableEq (Except ε α)
  | Except.ok a, Except.ok b =>
    if h : a = b then isTrue (congrArg Except.ok h)
    else isFalse (fun hh => h (Except.ok.inj hh))
  | Except.error a, Except.error b =>
    if h : a = b then isTrue (congrArg Except.error h)
    else isFalse (fun hh => h (Except.error.inj hh))
  | Except.ok _, Except.error _ => isFalse (fun hh => Except.noConfusion hh)
  | Except.error _, Except.ok _ => isFalse (fun hh => Except.noConfusion hh)

instance {ε α : Type} [DecidableEq ε] [DecidableEq α] :
    DecidableEq (Except ε α) := exceptDecEq

/-- Python whitespace characters recognised by `str.strip()` / `int()`
(ASCII fragment). -/
def isPySpace (c : Char) : Bool :=
  decide (c.toNat = 32 ∨ c.toNat = 9 ∨ c.toNat = 10 ∨ c.toNat = 13 ∨
          c.toNat = 11 ∨ c.toNat = 12)

/-- Decimal digit test, `[0-9]`. -/
def isDigitChar (c : Char) : Bool :=
  decide (48 ≤ c.toNat ∧ c.toNat ≤ 57)

/-- Hexadecimal digit test, `[0-9a-fA-F]` (the character class of the
UUID regex and of `int(_, 16)`). -/
def isHexDigit (c : Char) : Bool :=
  decide ((48 ≤ c.toNat ∧ c.toNat ≤ 57) ∨ (97 ≤ c.toNat ∧ c.toNat ≤ 102) ∨
          (65 ≤ c.toNat ∧ c.toNat ≤ 70))

/-- Numeric value of a decimal digit character. -/
def decDigitVal (c : Char) : Nat := c.toNat - 48

/-- Numeric value of a hexadecimal digit character (either case). -/
def hexDigitVal (c : Char) : Nat :=
  if 48 ≤ c.toNat ∧ c.toNat ≤ 57 then c.toNat - 48
  else if 97 ≤ c.toNat ∧ c.toNat ≤ 102 then c.toNat - 87
  else if 65 ≤ c.toNat ∧ c.toNat ≤ 70 then c.toNat - 55
  else 0

/-- Lowercase hexadecimal digit character for a value below 16, as produced
by Python's `'%x'` formatting. -/
def hexChar (d : Nat) : Char :=
  Char.ofNat (if d < 10 then 48 + d else 87 + d)

/-- Value of a digit string under a given base, most significant digit
first (the core of `int(s, base)` once the digits are isolated). -/
def digitsVal (base : Nat) (digVal : Char → Nat) (cs : List Char) : Nat :=
  cs.foldl (fun a c => base * a + digVal c) 0

/-- Value of a big-endian hex-digit string. -/
def hexVal (cs : List Char) : Nat := digitsVal 16 hexDigitVal cs

/-- Value of a big-endian decimal-digit string. -/
def decVal (cs : List Char) : Nat := digitsVal 10 decDigitVal cs

/-- Fixed-width big-endian lowercase hex rendering of `n % 16 ^ w`,
modelling Python's `'%032x' % n` (with `w = 32`, `n < 16 ^ 32`). -/
def toHexPadded : Nat → Nat → List Char
  | 0, _ => []
  | w + 1, n => toHexPadded w (n / 16) ++ [hexChar (n % 16)]

/-- Recursion core of `str.replace`: the fuel argument only bounds the
recursion depth (each step consumes at least one character, so fuel equal
to the string length never runs out); structural recursion on it keeps the
function kernel-reducible. -/
def replaceGo (pat repl : List Char) : Nat → List Char → List Char
  | _, [] => []
  | 0, c :: cs => c :: cs
  | fuel + 1, c :: cs =>
    if pat ≠ [] ∧ pat.isPrefixOf (c :: cs) then
      repl ++ replaceGo pat repl fuel ((c :: cs).drop pat.length)
    else
      c :: replaceGo pat repl fuel cs

/-- Python `str.replace(pat, repl)`: left-to-right, non-overlapping
replacement of every occurrence (`pat` nonempty in all our uses). -/
def replaceList (pat repl s : List Char) : List Char :=
  replaceGo pat repl s.length s

/-- Drop leading characters satisfying `p`, then trailing ones: the shape
shared by `str.strip('{}')` and the whitespace strip in `int()`. -/
def stripEnds (p : Char → Bool) (cs : List Char) : List Char :=
  ((cs.dropWhile p).reverse.dropWhile p).reverse

/-- Python `str.strip('{}')`. -/
def stripBraces (cs : List Char) : List Char :=
  stripEnds (fun c => decide (c = '{' ∨ c = '}')) cs

/-- Tail of a digit group: digits with single underscores allowed between
digits (Python's numeric-literal underscore rule); a leading underscore is
allowed here because the caller has already consumed a digit or a base
tag. -/
def digitTail (digOk : Char → Bool) : List Char → Bool
  | [] => true
  | [c] => decide (c ≠ '_') && digOk c
  | c :: d :: rest =>
    if c = '_' then digOk d && digitTail digOk rest
    else digOk c && digitTail digOk (d :: rest)

/-- A full digit group: nonempty, starts with a digit, single underscores
only between digits. -/
def digitGroup (digOk : Char → Bool) : List Char → Bool
  | [] => false
  | c :: rest => digOk c && digitTail digOk rest

/-- Split an optional leading sign character off a (whitespace-stripped)
numeral, returning negativity and the remainder. -/
def signSplit (cs : List Char) : Bool × List Char :=
  match cs with
  | '+' :: r => (false, r)
  | '-' :: r => (true, r)
  | r => (false, r)

/-- Scan a base-16 numeral body for an optional `0x`/`0X` tag, returning
whether the digits are well-formed together with the digit portion.
After a tag Python permits a single leading underscore, which is why the
tagged branch uses `digitTail` directly. -/
def hexTagSplit (digOk : Char → Bool) (cs : List Char) : Bool × List Char :=
  match cs with
  | '0' :: c :: r =>
    if c = 'x' ∨ c = 'X' then (decide (r ≠ []) && digitTail digOk r, r)
    else (digitGroup digOk ('0' :: c :: r), '0' :: c :: r)
  | _ => (digitGroup digOk cs, cs)

/-- Model of Python `int(s, 16)` (when `base16`) or `int(s)` on ASCII
strings: strip surrounding whitespace, optional sign, optional `0x`/`0X`
prefix in base 16, then a digit group with underscore separators. -/
def pyIntOfList (base16 : Bool) (cs0 : List Char) : Option Int :=
  let signAndRest := signSplit (stripEnds isPySpace cs0)
  let digOk : Char → Bool := if base16 then isHexDigit else isDigitChar
  let okAndDigits : Bool × List Char :=
    if base16 then hexTagSplit digOk signAndRest.2
    else (digitGroup digOk signAndRest.2, signAndRest.2)
  if okAndDigits.1 then
    let v : Nat :=
      if base16 then hexVal (okAndDigits.2.filter (fun c => c != '_'))
      else decVal (okAndDigits.2.filter (fun c => c != '_'))
    some (if signAndRest.1 then -(v : Int) else (v : Int))
  else none

/-- Python `int(s)` (base 10). -/
def pyIntDec (cs : List Char) : Option Int := pyIntOfList false cs

/-- Python `int(s, 16)`. -/
def pyIntHex16 (cs : List Char) : Option Int := pyIntOfList true cs

/-- Consume exactly `n` hex digits, returning the rest of the string:
building block for the `8-4-4-4-12` UUID regex. -/
def matchHexRun : Nat → List Char → Option (List Char)
  | 0, cs => some cs
  | _ + 1, [] => none
  | n + 1, c :: cs => if isHexDigit c then matchHexRun n cs else none

/-- Consume a literal dash. -/
def expectDash : List Char → Option (List Char)
  | '-' :: r => some r
  | _ => none

/-- Match of the anchored canonical-UUID regex
`^[0-9a-f]{8}-[0-9a-f]{4}-[0-9a-f]{4}-[0-9a-f]{4}-[0-9a-f]{12}$` compiled
with `re.IGNORECASE` (`UUID_PATTERN` in `range_utils.py`). -/
def uuidPatternCheck (cs : List Char) : Bool :=
  (do
    let r1 ← matchHexRun 8 cs
    let r2 ← expectDash r1
    let r3 ← matchHexRun 4 r2
    let r4 ← expectDash r3
    let r5 ← matchHexRun 4 r4
    let r6 ← expectDash r5
    let r7 ← matchHexRun 4 r6
    let r8 ← expectDash r7
    let r9 ← matchHexRun 12 r8
    if r9 = [] then some () else none).isSome

/-- Model of `is_valid_uuid` from `range_utils.py`: length exactly 36 and a
match of the canonical grouped-hex pattern. -/
def is_valid_uuid (cs : List Char) : Bool :=
  decide (cs.length = 36) && uuidPatternCheck cs

/-- Normalization performed by the `uuid.UUID(hex=...)` constructor before
parsing: `hex.replace('urn:', '').replace('uuid:', '').strip('{}')
.replace('-', '')`. -/
def pyUuidNormalize (cs : List Char) : List Char :=
  replaceList ['-'] []
    (stripBraces
      (replaceList ['u', 'u', 'i', 'd', ':'] []
        (replaceList ['u', 'r', 'n', ':'] [] cs)))

/-- Model of `uuid_to_int` from `range_utils.py`, i.e. of
`uuid.UUID(uuid_str).int`: normalize, require 32 characters, parse with
`int(h, 16)`, range-check against `2 ^ 128`. `none` models the raised
`ValueError`. -/
def uuid_to_int (cs : List Char) : Option Nat :=
  let h := pyUuidNormalize cs
  if h.length = 32 then
    (pyIntHex16 h).bind (fun v => if 0 ≤ v ∧ v < 2 ^ 128 then some v.toNat else none)
  else none

/-- Canonical lowercase rendering used by `str(uuid.UUID(int=n))`:
`'%032x' % n` cut into the `8-4-4-4-12` groups. -/
def uuidRender (n : Nat) : List Char :=
  (toHexPadded 32 n).take 8 ++
    ('-' :: (((toHexPadded 32 n).drop 8).take 4 ++
      ('-' :: (((toHexPadded 32 n).drop 12).take 4 ++
        ('-' :: (((toHexPadded 32 n).drop 16).take 4 ++
          ('-' :: (toHexPadded 32 n).drop 20)))))))

/-- Model of `int_to_uuid` from `range_utils.py`, i.e. of
`str(uuid.UUID(int=value))`; `none` models the `ValueError` the `UUID`
constructor raises when the value is out of the 128-bit range. -/
def int_to_uuid (n : Nat) : Option (List Char) :=
  if n < 2 ^ 128 then some (uuidRender n) else none

/-- Python `str(i)` for an `int`: optional minus sign followed by the
decimal digits. -/
def pyStrOfInt (i : Int) : List Char :=
  if i < 0 then '-' :: Nat.toDigits 10 (-i).toNat else Nat.toDigits 10 i.toNat

/-- Interpolated split points shared by `generate_int64_range_splits` and
`generate_uuid_range_splits` (both run the identical loops, the former on
the given integers, the latter on the 128-bit integer values of the
UUIDs). With boundaries included the loop forces index `0` to `start` and
index `num_splits - 1` to `e`, interior points being
`start + int(step * i)` with `step = (e - start) / (num_splits - 1)`;
with boundaries excluded the points are `start + int(step * i)` for
`i = 1 .. num_splits` with `step = (e - start) / (num_splits + 1)`. -/
def rangeSplitCore (start e : Int) (n : Nat) (incl : Bool) : List Int :=
  let d : Nat := (e - start).toNat
  if incl then
    (List.range n).map (fun i =>
      if i = 0 then start
      else if i = n - 1 then e
      else start + ((d * i / (n - 1) : Nat) : Int))
  else
    (List.range n).map (fun i => start + ((d * (i + 1) / (n + 1) : Nat) : Int))

/-- Model of `generate_int64_range_splits` from `range_utils.py`. The
`Except.error` cases carry the `ValueError` messages; the rounding-check
warning compares `int(start + step * (num_splits - 1))` with `end`. -/
def generate_int64_range_splits (start e num_splits : Int)
    (include_boundaries : Bool) : Except String (List (List Char) × List String) :=
  if start ≥ e then Except.error "Start value must be less than end value"
  else if num_splits < 2 then Except.error "Number of splits must be at least 2"
  else
    Except.ok ((rangeSplitCore start e num_splits.toNat include_boundaries).map pyStrOfInt,
      if include_boundaries then
        if start + (((e - start).toNat * (num_splits.toNat - 1) /
            (num_splits.toNat - 1) : Nat) : Int) ≠ e then
          ["End boundary adjusted due to integer division rounding"]
        else []
      else [])

/-- Error message used for a value that fails canonical-UUID validation. -/
def invalidUuidMsg (v : List Char) : String :=
  "Value '" ++ String.mk v ++
    "' is not a valid UUID format (expected: xxxxxxxx-xxxx-xxxx-xxxx-xxxxxxxxxxxx)"

/-- Conversion of each split point back to UUID text inside the generator
loop; a failed `int_to_uuid` (value outside 128 bits) propagates the
`ValueError` of the `UUID` constructor, aborting the loop. -/
def mapToUuids : List Int → Except String (List (List Char))
  | [] => Except.ok []
  | p :: ps =>
    match int_to_uuid p.toNat with
    | some cs =>
      match mapToUuids ps with
      | Except.ok rest => Except.ok (cs :: rest)
      | Except.error msg => Except.error msg
    | none => Except.error "int is out of range (need a 128-bit value)"

/-- Model of `generate_uuid_range_splits` from `range_utils.py`: validate
both UUIDs, convert to 128-bit integers, run the shared interpolation
loops, convert each point back to canonical text. (The fallthrough
`badly formed hexadecimal UUID string` branch models the `ValueError`
`uuid.UUID` would raise if conversion of an already-validated UUID failed;
it is unreachable, as proved below.) -/
def generate_uuid_range_splits (start_uuid end_uuid : List Char)
    (num_splits : Int) (include_boundaries : Bool) :
    Except String (List (List Char) × List String) :=
  if is_valid_uuid start_uuid = false then Except.error (invalidUuidMsg start_uuid)
  else if is_valid_uuid end_uuid = false then Except.error (invalidUuidMsg end_uuid)
  else
    match uuid_to_int start_uuid, uuid_to_int end_uuid with
    | some start_int, some end_int =>
      if start_int ≥ end_int then
        Except.error "Start value must be less than end value"
      else if num_splits < 2 then
        Except.error "Number of splits must be at least 2"
      else
        match mapToUuids (rangeSplitCore (start_int : Int) (end_int : Int)
            num_splits.toNat include_boundaries) with
        | Except.ok values => Except.ok (values, [])
        | Except.error msg => Except.error msg
    | _, _ => Except.error "badly formed hexadecimal UUID string"

/-- Column types supporting range generation (`models.SupportedRangeType`). -/
inductive SupportedRangeType where
  | INT64
  | STRING_UUID
  | BYTES_UUID
deriving DecidableEq, Repr

/-- Key column information (`models.KeyColumnInfo`). -/
structure KeyColumnInfo where
  column_name : List Char
  spanner_type : List Char
  ordinal_position : Int
deriving DecidableEq

/-- Key schema of a table or index (`models.EntityKeySchema`; the fields
not read by `validate_range_request` — entity type and parent-table data —
are omitted). -/
structure EntityKeySchema where
  entity_name : List Char
  key_columns : List KeyColumnInfo
  is_composite : Bool
deriving DecidableEq

/-- Validation outcome (`models.RangeValidationResult`). -/
structure RangeValidationResult where
  is_valid : Bool
  range_type : Option SupportedRangeType
  error_message : Option String
deriving DecidableEq

/-- Python `str.upper()` (ASCII model), charwise. -/
def pyUpper (cs : List Char) : List Char := cs.map Char.toUpper

/-- Python `str.lower()` (ASCII model), charwise. -/
def pyLower (cs : List Char) : List Char := cs.map Char.toLower

/-- Argument parsed from a `TYPE(...)` suffix. -/
inductive ParenArg where
  | num (n : Nat)
  | maxTag
deriving DecidableEq

/-- Model of `re.match(r'TAG\\((\\d+|MAX)\\)', t, re.IGNORECASE)` for an
uppercase ASCII `tag`: an anchored prefix match (`re.match` does not
require the match to span the whole string). The alternative `\\d+` is
tried greedily first; because a digit run followed by anything but `)`
cannot backtrack into a successful match, the regex succeeds on digits
exactly when the maximal digit run is nonempty and followed by `)`, and
otherwise on a (case-insensitive) literal `MAX` followed by `)`. -/
def parenArg (tag : List Char) (t : List Char) : Option ParenArg :=
  if (tag ++ ['(']).isPrefixOf (pyUpper t) then
    if ((t.drop (tag.length + 1)).takeWhile isDigitChar).isEmpty then
      if pyUpper ((t.drop (tag.length + 1)).take 3) = ['M', 'A', 'X'] ∧
          ((t.drop (tag.length + 1)).drop 3).head? = some ')' then
        some ParenArg.maxTag
      else none
    else
      if ((t.drop (tag.length + 1)).drop
          ((t.drop (tag.length + 1)).takeWhile isDigitChar).length).head? = some ')' then
        some (ParenArg.num (decVal ((t.drop (tag.length + 1)).takeWhile isDigitChar)))
      else none
  else none

/-- Model of `detect_range_type` from `range_utils.py`. -/
def detect_range_type (spanner_type : List Char)
    (sample_value : Option (List Char)) :
    Option SupportedRangeType × Option String :=
  if pyUpper spanner_type = "INT64".data then (some SupportedRangeType.INT64, none)
  else if ("STRING".data).isPrefixOf (pyUpper spanner_type) then
    match parenArg "STRING".data spanner_type with
    | some g =>
      if (match g with | ParenArg.maxTag => 36 | ParenArg.num k => k) ≤ 35 then
        (none, some ("Column length (" ++
          toString (match g with | ParenArg.maxTag => 36 | ParenArg.num k => k) ++
          ") too short for UUIDs (need greater than 35)"))
      else
        match sample_value with
        | some sv =>
          if is_valid_uuid sv = false then (none, some (invalidUuidMsg sv))
          else (some SupportedRangeType.STRING_UUID, none)
        | none => (some SupportedRangeType.STRING_UUID, none)
    | none => (none, some ("Could not parse STRING type: " ++ String.mk spanner_type))
  else if ("BYTES".data).isPrefixOf (pyUpper spanner_type) then
    match parenArg "BYTES".data spanner_type with
    | some g =>
      if (match g with | ParenArg.maxTag => 16 | ParenArg.num k => k) ≤ 15 then
        (none, some ("Column length (" ++
          toString (match g with | ParenArg.maxTag => 16 | ParenArg.num k => k) ++
          ") too short for UUIDs (need greater than 15)"))
      else
        match sample_value with
        | some sv =>
          if is_valid_uuid sv = false then (none, some (invalidUuidMsg sv))
          else (some SupportedRangeType.BYTES_UUID, none)
        | none => (some SupportedRangeType.BYTES_UUID, none)
    | none => (none, some ("Could not parse BYTES type: " ++ String.mk spanner_type))
  else
    (none, some ("Column type '" ++ String.mk spanner_type ++
      "' not supported. Supported: INT64, STRING(>35) with UUIDs, BYTES(>15) with UUIDs."))

/-- Model of `validate_range_request` from `range_utils.py`. Note that
`detect_range_type` receives `start_value` as the sample value, and that
the `(none, none)` detection outcome (proved impossible below) falls
through to the final `is_valid=True` return exactly as in the source. -/
def validate_range_request (schema : EntityKeySchema)
    (start_value end_value : List Char) : RangeValidationResult :=
  if schema.is_composite then
    { is_valid := false, range_type := none,
      error_message :=
        some "Range splits are not supported for composite keys. Please add splits individually." }
  else
    match schema.key_columns with
    | [] =>
      { is_valid := false, range_type := none,
        error_message := some "No key columns found in schema" }
    | key_column :: _ =>
      match detect_range_type key_column.spanner_type (some start_value) with
      | (_, some err) =>
        { is_valid := false, range_type := none, error_message := some err }
      | (range_type, none) =>
        if range_type = some SupportedRangeType.INT64 then
          match pyIntDec start_value, pyIntDec end_value with
          | some start_int, some end_int =>
            if start_int ≥ end_int then
              { is_valid := false, range_type := range_type,
                error_message := some "Start value must be less than end value" }
            else
              { is_valid := true, range_type := range_type, error_message := none }
          | _, _ =>
            { is_valid := false, range_type := range_type,
              error_message := some ("Invalid integer value(s): start='" ++
                String.mk start_value ++ "', end='" ++ String.mk end_value ++ "'") }
        else if range_type = some SupportedRangeType.STRING_UUID ∨
            range_type = some SupportedRangeType.BYTES_UUID then
          if is_valid_uuid start_value = false then
            { is_valid := false, range_type := range_type,
              error_message := some (invalidUuidMsg start_value) }
          else if is_valid_uuid end_value = false then
            { is_valid := false, range_type := range_type,
              error_message := some (invalidUuidMsg end_value) }
          else
            match uuid_to_int start_value, uuid_to_int end_value with
            | some start_int, some end_int =>
              if start_int ≥ end_int then
                { is_valid := false, range_type := range_type,
                  error_message := some "Start value must be less than end value" }
              else
                { is_valid := true, range_type := range_type, error_message := none }
            | _, _ =>
              { is_valid := false, range_type := range_type,
                error_message := some "badly formed hexadecimal UUID string" }
        else
          { is_valid := true, range_type := range_type, error_message := none }

set_option maxRecDepth 10000

/-! ### Character-level lemmas -/

theorem char_eq_of_toNat_eq {a b : Char} (h : a.toNat = b.toNat) : a = b :=
  Char.ext (UInt32.ext h)

theorem toNat_ofNat_valid {n : Nat} (h : n < 55296) : (Char.ofNat n).toNat = n := by
  have hv : n.isValidChar := Or.inl h
  simp [Char.ofNat, hv, Char.ofNatAux, Char.toNat, UInt32.toNat, BitVec.toNat_ofNatLt]

theorem toNat_toLower (c : Char) :
    (Char.toLower c).toNat =
      if 65 ≤ c.toNat ∧ c.toNat ≤ 90 then c.toNat + 32 else c.toNat := by
  simp only [Char.toLower, ge_iff_le]
  by_cases h : 65 ≤ c.toNat ∧ c.toNat ≤ 90
  · rw [if_pos h, if_pos h]
    exact toNat_ofNat_valid (by omega)
  · rw [if_neg h, if_neg h]

theorem toNat_toUpper (c : Char) :
    (Char.toUpper c).toNat =
      if 97 ≤ c.toNat ∧ c.toNat ≤ 122 then c.toNat - 32 else c.toNat := by
  simp only [Char.toUpper, ge_iff_le]
  by_cases h : 97 ≤ c.toNat ∧ c.toNat ≤ 122
  · rw [if_pos h, if_pos h]
    exact toNat_ofNat_valid (by omega)
  · rw [if_neg h, if_neg h]

theorem toNat_hexChar {d : Nat} (hd : d < 16) :
    (hexChar d).toNat = if d < 10 then 48 + d else 87 + d := by
  unfold hexChar
  split <;> exact toNat_ofNat_valid (by omega)

theorem hexDigitVal_lt {c : Char} (h : isHexDigit c = true) : hexDigitVal c < 16 := by
  simp only [isHexDigit, decide_eq_true_eq] at h
  unfold hexDigitVal
  split_ifs <;> omega

theorem hexChar_hexDigitVal {c : Char} (h : isHexDigit c = true) :
    hexChar (hexDigitVal c) = Char.toLower c := by
  apply char_eq_of_toNat_eq
  rw [toNat_hexChar (hexDigitVal_lt h), toNat_toLower]
  simp only [isHexDigit, decide_eq_true_eq] at h
  unfold hexDigitVal
  split_ifs <;> omega

theorem hexDigitVal_hexChar {d : Nat} (h : d < 16) : hexDigitVal (hexChar d) = d := by
  unfold hexDigitVal
  rw [toNat_hexChar h]
  split_ifs <;> omega

theorem isHexDigit_hexChar {d : Nat} (h : d < 16) : isHexDigit (hexChar d) = true := by
  simp only [isHexDigit, decide_eq_true_eq]
  rw [toNat_hexChar h]
  split_ifs <;> omega

theorem toNat_hexChar_range {d : Nat} (h : d < 16) :
    (48 ≤ (hexChar d).toNat ∧ (hexChar d).toNat ≤ 57) ∨
      (97 ≤ (hexChar d).toNat ∧ (hexChar d).toNat ≤ 102) := by
  rw [toNat_hexChar h]
  split_ifs <;> omega

theorem char_ne_of_toNat_ne {a b : Char} (h : a.toNat ≠ b.toNat) : a ≠ b :=
  fun hh => h (congrArg Char.toNat hh)

theorem toLower_of_not_upper {c : Char} (h : ¬(65 ≤ c.toNat ∧ c.toNat ≤ 90)) :
    Char.toLower c = c := by
  apply char_eq_of_toNat_eq
  rw [toNat_toLower, if_neg h]

/-! ### List and parsing lemmas -/

theorem filter_all_true {p : Char → Bool} :
    ∀ {cs : List Char}, (∀ c ∈ cs, p c = true) → cs.filter p = cs
  | [], _ => rfl
  | c :: cs, h => by
    simp only [List.filter_cons, h c (by simp), if_true]
    rw [filter_all_true (fun d hd => h d (by simp [hd]))]

theorem dropWhile_eq_self_of_all {p : Char → Bool} {cs : List Char}
    (h : ∀ c ∈ cs, p c = false) : cs.dropWhile p = cs := by
  cases cs with
  | nil => rfl
  | cons c cs =>
    rw [List.dropWhile_cons, if_neg]
    simp [h c (by simp)]

theorem stripEnds_eq_self {p : Char → Bool} {cs : List Char}
    (h : ∀ c ∈ cs, p c = false) : stripEnds p cs = cs := by
  unfold stripEnds
  rw [dropWhile_eq_self_of_all h,
    dropWhile_eq_self_of_all (fun c hc => h c (List.mem_reverse.mp hc)),
    List.reverse_reverse]

theorem mem_of_isPrefixOf {pat l : List Char} (h : pat.isPrefixOf l = true) :
    ∀ c ∈ pat, c ∈ l := by
  have hp : pat <+: l := List.isPrefixOf_iff_prefix.mp h
  exact fun c hc => hp.sublist.subset hc

theorem replaceGo_eq_self {pat repl : List Char} {x : Char} (hx : x ∈ pat) :
    ∀ fuel (cs : List Char), (∀ c ∈ cs, c ≠ x) → replaceGo pat repl fuel cs = cs
  | _, [], _ => by cases ‹Nat› <;> rfl
  | 0, c :: cs, _ => rfl
  | fuel + 1, c :: cs, h => by
    have hni : ¬(pat ≠ [] ∧ pat.isPrefixOf (c :: cs) = true) := by
      rintro ⟨-, hpre⟩
      exact h x (mem_of_isPrefixOf hpre x hx) rfl
    rw [replaceGo, if_neg hni,
      replaceGo_eq_self hx fuel cs (fun d hd => h d (by simp [hd]))]

theorem replaceList_eq_self (pat : List Char) (x : Char) {repl cs : List Char}
    (hx : x ∈ pat) (h : ∀ c ∈ cs, c ≠ x) : replaceList pat repl cs = cs :=
  replaceGo_eq_self hx cs.length cs h

theorem replaceGo_single {a : Char} :
    ∀ fuel (cs : List Char), cs.length ≤ fuel →
      replaceGo [a] [] fuel cs = cs.filter (fun c => c != a)
  | _, [], _ => by cases ‹Nat› <;> rfl
  | 0, c :: cs, h => by simp at h
  | fuel + 1, c :: cs, h => by
    have hlen : cs.length ≤ fuel := by simp at h; omega
    by_cases hca : a = c
    · rw [replaceGo, if_pos ⟨by simp, by simp [List.isPrefixOf, hca]⟩]
      show [] ++ replaceGo [a] [] fuel cs = _
      rw [List.nil_append, replaceGo_single fuel cs hlen, List.filter_cons]
      simp [hca.symm]
    · rw [replaceGo, if_neg]
      · rw [replaceGo_single fuel cs hlen, List.filter_cons]
        simp [Ne.symm hca]
      · rintro ⟨-, hpre⟩
        simp [List.isPrefixOf] at hpre
        exact hca hpre

theorem replaceList_single {a : Char} (cs : List Char) :
    replaceList [a] [] cs = cs.filter (fun c => c != a) :=
  replaceGo_single cs.length cs le_rfl

theorem takeWhile_append_all {p : Char → Bool} :
    ∀ (l r : List Char), (∀ c ∈ l, p c = true) →
      List.takeWhile p (l ++ r) = l ++ List.takeWhile p r
  | [], r, _ => rfl
  | c :: l, r, h => by
    rw [List.cons_append, List.takeWhile_cons, if_pos (h c (by simp)),
      takeWhile_append_all l r (fun d hd => h d (by simp [hd])), List.cons_append]

theorem dropWhile_append_all {p : Char → Bool} :
    ∀ (l r : List Char), (∀ c ∈ l, p c = true) →
      List.dropWhile p (l ++ r) = List.dropWhile p r
  | [], r, _ => rfl
  | c :: l, r, h => by
    rw [List.cons_append, List.dropWhile_cons, if_pos (h c (by simp)),
      dropWhile_append_all l r (fun d hd => h d (by simp [hd]))]

theorem digitTail_of_all {digOk : Char → Bool} :
    ∀ cs : List Char, (∀ c ∈ cs, digOk c = true ∧ c ≠ '_') → digitTail digOk cs = true
  | [], _ => rfl
  | [c], h => by
    simp [digitTail, (h c (by simp)).1, (h c (by simp)).2]
  | c :: d :: rest, h => by
    rw [digitTail, if_neg (h c (by simp)).2]
    simp only [(h c (by simp)).1, Bool.true_and]
    exact digitTail_of_all (d :: rest) (fun x hx => h x (by simp at hx ⊢; tauto))

theorem digitGroup_of_all {digOk : Char → Bool} {cs : List Char} (hne : cs ≠ [])
    (h : ∀ c ∈ cs, digOk c = true ∧ c ≠ '_') : digitGroup digOk cs = true := by
  cases cs with
  | nil => exact absurd rfl hne
  | cons c cs =>
    rw [digitGroup]
    simp only [(h c (by simp)).1, Bool.true_and]
    exact digitTail_of_all cs (fun d hd => h d (by simp [hd]))

theorem digitsVal_append_singleton (b : Nat) (v : Char → Nat) (xs : List Char) (c : Char) :
    digitsVal b v (xs ++ [c]) = b * digitsVal b v xs + v c := by
  simp [digitsVal, List.foldl_append]

/-! ### Hexadecimal rendering and parsing lemmas -/

theorem length_toHexPadded : ∀ (w n : Nat), (toHexPadded w n).length = w
  | 0, _ => rfl
  | w + 1, n => by simp [toHexPadded, length_toHexPadded w]

theorem mem_toHexPadded_isHex : ∀ (w n : Nat), ∀ c ∈ toHexPadded w n, isHexDigit c = true
  | 0, _ => by simp [toHexPadded]
  | w + 1, n => by
    intro c hc
    simp only [toHexPadded, List.mem_append, List.mem_singleton] at hc
    rcases hc with hc | hc
    · exact mem_toHexPadded_isHex w (n / 16) c hc
    · subst hc
      exact isHexDigit_hexChar (Nat.mod_lt _ (by omega))

theorem hexVal_toHexPadded : ∀ (w n : Nat), hexVal (toHexPadded w n) = n % 16 ^ w
  | 0, n => by simp [toHexPadded, hexVal, digitsVal, Nat.mod_one]
  | w + 1, n => by
    rw [toHexPadded]
    rw [show hexVal (toHexPadded w (n / 16) ++ [hexChar (n % 16)]) =
        16 * hexVal (toHexPadded w (n / 16)) + hexDigitVal (hexChar (n % 16)) from
      digitsVal_append_singleton 16 hexDigitVal _ _]
    rw [hexVal_toHexPadded w (n / 16), hexDigitVal_hexChar (Nat.mod_lt _ (by omega))]
    have h1 : n = (16 * (n / 16 % 16 ^ w) + n % 16) + 16 ^ (w + 1) * (n / 16 / 16 ^ w) := by
      conv_lhs => rw [← Nat.div_add_mod n 16, ← Nat.div_add_mod (n / 16) (16 ^ w)]
      ring
    have h2 : 16 * (n / 16 % 16 ^ w) + n % 16 < 16 ^ (w + 1) := by
      have ha := Nat.mod_lt (n / 16) (show 0 < 16 ^ w by positivity)
      have hb := Nat.mod_lt n (show 0 < 16 by omega)
      rw [pow_succ]
      omega
    conv_rhs => rw [h1]
    rw [Nat.add_mul_mod_self_left, Nat.mod_eq_of_lt h2]

theorem hexVal_lt_of_all_hex {cs : List Char} (h : ∀ c ∈ cs, isHexDigit c = true) :
    hexVal cs < 16 ^ cs.length := by
  induction cs using List.reverseRecOn with
  | nil => simp [hexVal, digitsVal]
  | append_singleton xs c ih =>
    have hv : hexVal (xs ++ [c]) = 16 * hexVal xs + hexDigitVal c :=
      digitsVal_append_singleton 16 hexDigitVal _ _
    have hx := ih (fun d hd => h d (by simp [hd]))
    have hc := hexDigitVal_lt (h c (by simp))
    rw [hv, List.length_append, List.length_singleton, pow_succ]
    omega

theorem toHexPadded_map_toLower {H : List Char} (h : ∀ c ∈ H, isHexDigit c = true) :
    toHexPadded H.length (hexVal H) = H.map Char.toLower := by
  induction H using List.reverseRecOn with
  | nil => rfl
  | append_singleton xs c ih =>
    have hc : isHexDigit c = true := h c (by simp)
    have hv : hexVal (xs ++ [c]) = 16 * hexVal xs + hexDigitVal c :=
      digitsVal_append_singleton 16 hexDigitVal _ _
    have hdiv : hexVal (xs ++ [c]) / 16 = hexVal xs := by
      rw [hv, Nat.mul_add_div (by omega), Nat.div_eq_of_lt (hexDigitVal_lt hc), Nat.add_zero]
    have hmod : hexVal (xs ++ [c]) % 16 = hexDigitVal c := by
      rw [hv, Nat.mul_add_mod, Nat.mod_eq_of_lt (hexDigitVal_lt hc)]
    rw [List.length_append, List.length_singleton, toHexPadded, hdiv, hmod,
      ih (fun d hd => h d (by simp [hd])), hexChar_hexDigitVal hc, List.map_append,
      List.map_singleton]

/-! ### Parsing all-hex strings and UUID normalization -/

theorem hex_char_facts {c : Char} (h : isHexDigit c = true) :
    c ≠ '_' ∧ c ≠ '-' ∧ c ≠ '+' ∧ c ≠ ':' ∧ c ≠ '{' ∧ c ≠ '}' ∧ c ≠ 'x' ∧ c ≠ 'X' ∧
      isPySpace c = false := by
  simp only [isHexDigit, decide_eq_true_eq] at h
  refine ⟨?_, ?_, ?_, ?_, ?_, ?_, ?_, ?_, ?_⟩
  · exact char_ne_of_toNat_ne (by show c.toNat ≠ 95; omega)
  · exact char_ne_of_toNat_ne (by show c.toNat ≠ 45; omega)
  · exact char_ne_of_toNat_ne (by show c.toNat ≠ 43; omega)
  · exact char_ne_of_toNat_ne (by show c.toNat ≠ 58; omega)
  · exact char_ne_of_toNat_ne (by show c.toNat ≠ 123; omega)
  · exact char_ne_of_toNat_ne (by show c.toNat ≠ 125; omega)
  · exact char_ne_of_toNat_ne (by show c.toNat ≠ 120; omega)
  · exact char_ne_of_toNat_ne (by show c.toNat ≠ 88; omega)
  · simp only [isPySpace, decide_eq_false_iff_not]
    omega

theorem signSplit_not_sign {c0 : Char} {cs : List Char} (h1 : c0 ≠ '+') (h2 : c0 ≠ '-') :
    signSplit (c0 :: cs) = (false, c0 :: cs) := by
  unfold signSplit
  split
  · next r heq =>
    exact absurd (List.cons.inj heq).1 h1
  · next r heq =>
    exact absurd (List.cons.inj heq).1 h2
  · rfl

theorem hexTagSplit_no_tag {digOk : Char → Bool} :
    ∀ cs : List Char, (∀ c2 r, cs.drop 1 = c2 :: r → c2 ≠ 'x' ∧ c2 ≠ 'X') →
      hexTagSplit digOk cs = (digitGroup digOk cs, cs) := by
  intro cs h
  unfold hexTagSplit
  split
  · rename_i c2 r
    rw [if_neg]
    rintro (rfl | rfl)
    · exact (h _ r rfl).1 rfl
    · exact (h _ r rfl).2 rfl
  · rfl

theorem pyIntHex16_all_hex {c0 : Char} {cs : List Char}
    (hall : ∀ c ∈ c0 :: cs, isHexDigit c = true) :
    pyIntHex16 (c0 :: cs) = some ((hexVal (c0 :: cs) : Nat) : Int) := by
  have hfacts := fun c hc => hex_char_facts (hall c hc)
  have hgrp : digitGroup isHexDigit (c0 :: cs) = true :=
    digitGroup_of_all (by simp) (fun c hc => ⟨hall c hc, (hfacts c hc).1⟩)
  have hfil : (c0 :: cs).filter (fun c => c != '_') = c0 :: cs :=
    filter_all_true (fun c hc => by simp [(hfacts c hc).1])
  have hc0 := hfacts c0 (by simp)
  unfold pyIntHex16 pyIntOfList
  rw [stripEnds_eq_self (fun c hc => (hfacts c hc).2.2.2.2.2.2.2.2),
    signSplit_not_sign hc0.2.2.1 hc0.2.1]
  simp only
  rw [hexTagSplit_no_tag (c0 :: cs) (by
    rintro c2 r heq
    have hc2 : c2 ∈ c0 :: cs := by
      have : c2 ∈ (c0 :: cs).drop 1 := by rw [heq]; simp
      exact List.mem_of_mem_drop this
    exact ⟨(hfacts c2 hc2).2.2.2.2.2.2.1, (hfacts c2 hc2).2.2.2.2.2.2.2.1⟩)]
  simp only [hgrp, if_true, hfil]
  rfl

theorem pyUuidNormalize_hex_dash {cs : List Char}
    (h : ∀ c ∈ cs, isHexDigit c = true ∨ c = '-') :
    pyUuidNormalize cs = cs.filter (fun c => c != '-') := by
  have htoNat : ∀ c ∈ cs, (48 ≤ c.toNat ∧ c.toNat ≤ 57) ∨ (97 ≤ c.toNat ∧ c.toNat ≤ 102) ∨
      (65 ≤ c.toNat ∧ c.toNat ≤ 70) ∨ c.toNat = 45 := by
    intro c hc
    rcases h c hc with hx | hd
    · simp only [isHexDigit, decide_eq_true_eq] at hx
      tauto
    · subst hd
      exact Or.inr (Or.inr (Or.inr (by decide)))
  have hnc : ∀ c ∈ cs, c ≠ ':' := fun c hc =>
    char_ne_of_toNat_ne (by have := htoNat c hc; show c.toNat ≠ 58; omega)
  unfold pyUuidNormalize
  rw [replaceList_eq_self ['u', 'r', 'n', ':'] ':' (by simp) hnc,
    replaceList_eq_self ['u', 'u', 'i', 'd', ':'] ':' (by simp) hnc]
  unfold stripBraces
  rw [stripEnds_eq_self (fun c hc => by
    have hh := htoNat c hc
    simp only [decide_eq_false_iff_not]
    rintro (rfl | rfl)
    · exact absurd hh (by decide)
    · exact absurd hh (by decide)), replaceList_single]

theorem uuid_to_int_hex_dash {cs : List Char}
    (h : ∀ c ∈ cs, isHexDigit c = true ∨ c = '-') :
    uuid_to_int cs =
      if (cs.filter (fun c => c != '-')).length = 32 then
        some (hexVal (cs.filter (fun c => c != '-')))
      else none := by
  have hfil : ∀ c ∈ cs.filter (fun c => c != '-'), isHexDigit c = true := by
    intro c hc
    rw [List.mem_filter] at hc
    rcases h c hc.1 with hx | hd
    · exact hx
    · subst hd
      simpa using hc.2
  unfold uuid_to_int
  rw [pyUuidNormalize_hex_dash h]
  by_cases hlen : (cs.filter (fun c => c != '-')).length = 32
  · rw [if_pos hlen, if_pos hlen]
    obtain ⟨c0, cs', heq⟩ : ∃ c0 cs', cs.filter (fun c => c != '-') = c0 :: cs' := by
      rcases hfl : cs.filter (fun c => c != '-') with _ | ⟨c0, cs'⟩
      · rw [hfl] at hlen
        simp at hlen
      · exact ⟨c0, cs', rfl⟩
    rw [heq] at hfil hlen ⊢
    rw [pyIntHex16_all_hex hfil, Option.some_bind]
    have hlt : hexVal (c0 :: cs') < 2 ^ 128 := by
      have hb := hexVal_lt_of_all_hex hfil
      rw [hlen] at hb
      calc hexVal (c0 :: cs') < 16 ^ 32 := hb
        _ = 2 ^ 128 := by norm_num
    rw [if_pos ⟨Int.natCast_nonneg _, by exact_mod_cast hlt⟩]
    simp
  · rw [if_neg hlen, if_neg hlen]

/-! ### Structure of valid UUID strings -/

theorem matchHexRun_decomp : ∀ (n : Nat) (cs r : List Char), matchHexRun n cs = some r →
    ∃ g, cs = g ++ r ∧ g.length = n ∧ ∀ c ∈ g, isHexDigit c = true
  | 0, cs, r => by
    intro h
    simp only [matchHexRun, Option.some.injEq] at h
    exact ⟨[], by simp [h], rfl, by simp⟩
  | n + 1, [], r => by
    intro h
    simp [matchHexRun] at h
  | n + 1, c :: cs, r => by
    intro h
    rw [matchHexRun] at h
    by_cases hc : isHexDigit c = true
    · rw [if_pos hc] at h
      obtain ⟨g, hg1, hg2, hg3⟩ := matchHexRun_decomp n cs r h
      refine ⟨c :: g, by simp [hg1], by simp [hg2], ?_⟩
      intro d hd
      rcases List.mem_cons.mp hd with hd | hd
      · subst hd
        exact hc
      · exact hg3 d hd
    · rw [if_neg hc] at h
      exact absurd h (by simp)

theorem matchHexRun_append : ∀ {n : Nat} {g : List Char} (r : List Char),
    g.length = n → (∀ c ∈ g, isHexDigit c = true) → matchHexRun n (g ++ r) = some r := by
  intro n
  induction n with
  | zero =>
    intro g r hlen _
    rw [List.length_eq_zero.mp hlen]
    rfl
  | succ n ih =>
    intro g r hlen hhex
    cases g with
    | nil => simp at hlen
    | cons c g =>
      rw [List.cons_append, matchHexRun, if_pos (hhex c (by simp))]
      exact ih r (by simpa using hlen) (fun d hd => hhex d (by simp [hd]))

theorem expectDash_some {cs r : List Char} (h : expectDash cs = some r) : cs = '-' :: r := by
  unfold expectDash at h
  split at h
  · rename_i r'
    rw [(Option.some.inj h)]
  · exact absurd h (by simp)

theorem is_valid_uuid_decomp {cs : List Char} (h : is_valid_uuid cs = true) :
    ∃ g1 g2 g3 g4 g5 : List Char,
      cs = g1 ++ '-' :: (g2 ++ '-' :: (g3 ++ '-' :: (g4 ++ '-' :: g5))) ∧
      g1.length = 8 ∧ g2.length = 4 ∧ g3.length = 4 ∧ g4.length = 4 ∧ g5.length = 12 ∧
      (∀ c ∈ g1, isHexDigit c = true) ∧ (∀ c ∈ g2, isHexDigit c = true) ∧
      (∀ c ∈ g3, isHexDigit c = true) ∧ (∀ c ∈ g4, isHexDigit c = true) ∧
      (∀ c ∈ g5, isHexDigit c = true) := by
  unfold is_valid_uuid uuidPatternCheck at h
  rw [Bool.and_eq_true] at h
  replace h := h.2
  rcases hm1 : matchHexRun 8 cs with _ | r1 <;> rw [hm1] at h
  · simp at h
  simp only [Option.bind_eq_bind, Option.some_bind] at h
  rcases hd1 : expectDash r1 with _ | r2 <;> rw [hd1] at h
  · simp at h
  simp only [Option.bind_eq_bind, Option.some_bind] at h
  rcases hm2 : matchHexRun 4 r2 with _ | r3 <;> rw [hm2] at h
  · simp at h
  simp only [Option.bind_eq_bind, Option.some_bind] at h
  rcases hd2 : expectDash r3 with _ | r4 <;> rw [hd2] at h
  · simp at h
  simp only [Option.bind_eq_bind, Option.some_bind] at h
  rcases hm3 : matchHexRun 4 r4 with _ | r5 <;> rw [hm3] at h
  · simp at h
  simp only [Option.bind_eq_bind, Option.some_bind] at h
  rcases hd3 : expectDash r5 with _ | r6 <;> rw [hd3] at h
  · simp at h
  simp only [Option.bind_eq_bind, Option.some_bind] at h
  rcases hm4 : matchHexRun 4 r6 with _ | r7 <;> rw [hm4] at h
  · simp at h
  simp only [Option.bind_eq_bind, Option.some_bind] at h
  rcases hd4 : expectDash r7 with _ | r8 <;> rw [hd4] at h
  · simp at h
  simp only [Option.bind_eq_bind, Option.some_bind] at h
  rcases hm5 : matchHexRun 12 r8 with _ | r9 <;> rw [hm5] at h
  · simp at h
  simp only [Option.bind_eq_bind, Option.some_bind] at h
  have hr9 : r9 = [] := by
    by_cases hcond : r9 = []
    · exact hcond
    · rw [if_neg hcond] at h
      simp at h
  obtain ⟨g1, hc1, hl1, hh1⟩ := matchHexRun_decomp 8 cs r1 hm1
  obtain ⟨g2, hc2, hl2, hh2⟩ := matchHexRun_decomp 4 r2 r3 hm2
  obtain ⟨g3, hc3, hl3, hh3⟩ := matchHexRun_decomp 4 r4 r5 hm3
  obtain ⟨g4, hc4, hl4, hh4⟩ := matchHexRun_decomp 4 r6 r7 hm4
  obtain ⟨g5, hc5, hl5, hh5⟩ := matchHexRun_decomp 12 r8 r9 hm5
  refine ⟨g1, g2, g3, g4, g5, ?_, hl1, hl2, hl3, hl4, hl5, hh1, hh2, hh3, hh4, hh5⟩
  rw [hc1, expectDash_some hd1, hc2, expectDash_some hd2, hc3, expectDash_some hd3,
    hc4, expectDash_some hd4, hc5, hr9, List.append_nil]

theorem valid_uuid_chars {cs : List Char} (h : is_valid_uuid cs = true) :
    ∀ c ∈ cs, isHexDigit c = true ∨ c = '-' := by
  obtain ⟨g1, g2, g3, g4, g5, hcs, -, -, -, -, -, hh1, hh2, hh3, hh4, hh5⟩ :=
    is_valid_uuid_decomp h
  intro c hc
  rw [hcs] at hc
  simp only [List.mem_append, List.mem_cons] at hc
  rcases hc with hc | hc | hc | hc | hc | hc | hc | hc | hc
  · exact Or.inl (hh1 c hc)
  · exact Or.inr hc
  · exact Or.inl (hh2 c hc)
  · exact Or.inr hc
  · exact Or.inl (hh3 c hc)
  · exact Or.inr hc
  · exact Or.inl (hh4 c hc)
  · exact Or.inr hc
  · exact Or.inl (hh5 c hc)

/-! ### Roundtrip between `uuid_to_int` and `int_to_uuid` -/

theorem take_append_exact {a b : List Char} {n : Nat} (h : a.length = n) :
    (a ++ b).take n = a := by
  subst h
  exact List.take_left a b

theorem drop_append_exact {a b : List Char} {n : Nat} (h : a.length = n) :
    (a ++ b).drop n = b := by
  subst h
  exact List.drop_left a b

theorem expectDash_cons (r : List Char) : expectDash ('-' :: r) = some r := rfl

theorem filter_ne_dash_of_hex {g : List Char} (h : ∀ c ∈ g, isHexDigit c = true) :
    g.filter (fun c => c != '-') = g :=
  filter_all_true (fun c hc => by simp [(hex_char_facts (h c hc)).2.1])

theorem uuidRender_valid (n : Nat) : is_valid_uuid (uuidRender n) = true := by
  have hlen : (toHexPadded 32 n).length = 32 := length_toHexPadded 32 n
  have hhex := mem_toHexPadded_isHex 32 n
  unfold uuidRender is_valid_uuid uuidPatternCheck
  have l1 : ((toHexPadded 32 n).take 8).length = 8 := by
    rw [List.length_take, hlen]
    omega
  have l2 : (((toHexPadded 32 n).drop 8).take 4).length = 4 := by
    rw [List.length_take, List.length_drop, hlen]
    omega
  have l3 : (((toHexPadded 32 n).drop 12).take 4).length = 4 := by
    rw [List.length_take, List.length_drop, hlen]
    omega
  have l4 : (((toHexPadded 32 n).drop 16).take 4).length = 4 := by
    rw [List.length_take, List.length_drop, hlen]
    omega
  have l5 : ((toHexPadded 32 n).drop 20).length = 12 := by
    rw [List.length_drop, hlen]
  have x1 : ∀ c ∈ (toHexPadded 32 n).take 8, isHexDigit c = true :=
    fun c hc => hhex c (List.take_subset _ _ hc)
  have x2 : ∀ c ∈ ((toHexPadded 32 n).drop 8).take 4, isHexDigit c = true :=
    fun c hc => hhex c (List.drop_subset _ _ (List.take_subset _ _ hc))
  have x3 : ∀ c ∈ ((toHexPadded 32 n).drop 12).take 4, isHexDigit c = true :=
    fun c hc => hhex c (List.drop_subset _ _ (List.take_subset _ _ hc))
  have x4 : ∀ c ∈ ((toHexPadded 32 n).drop 16).take 4, isHexDigit c = true :=
    fun c hc => hhex c (List.drop_subset _ _ (List.take_subset _ _ hc))
  have x5 : ∀ c ∈ (toHexPadded 32 n).drop 20, isHexDigit c = true :=
    fun c hc => hhex c (List.drop_subset _ _ hc)
  rw [matchHexRun_append _ l1 x1]
  simp only [Option.bind_eq_bind, Option.some_bind, expectDash_cons]
  rw [matchHexRun_append _ l2 x2]
  simp only [Option.some_bind, expectDash_cons]
  rw [matchHexRun_append _ l3 x3]
  simp only [Option.some_bind, expectDash_cons]
  rw [matchHexRun_append _ l4 x4]
  simp only [Option.some_bind, expectDash_cons]
  rw [show (toHexPadded 32 n).drop 20 = (toHexPadded 32 n).drop 20 ++ [] by simp,
    matchHexRun_append _ l5 (by simpa using x5)]
  rw [Option.some_bind, if_pos rfl]
  simp only [Option.isSome_some, Bool.and_true]
  rw [decide_eq_true_eq]
  simp only [List.length_append, List.length_cons, List.length_nil, l1, l2, l3, l4, l5]

theorem uuidRender_chars (n : Nat) :
    ∀ c ∈ uuidRender n, isHexDigit c = true ∨ c = '-' := by
  have hhex := mem_toHexPadded_isHex 32 n
  intro c hc
  unfold uuidRender at hc
  simp only [List.mem_append, List.mem_cons] at hc
  rcases hc with hc | hc | hc | hc | hc | hc | hc | hc | hc
  · exact Or.inl (hhex c (List.take_subset _ _ hc))
  · exact Or.inr hc
  · exact Or.inl (hhex c (List.drop_subset _ _ (List.take_subset _ _ hc)))
  · exact Or.inr hc
  · exact Or.inl (hhex c (List.drop_subset _ _ (List.take_subset _ _ hc)))
  · exact Or.inr hc
  · exact Or.inl (hhex c (List.drop_subset _ _ (List.take_subset _ _ hc)))
  · exact Or.inr hc
  · exact Or.inl (hhex c (List.drop_subset _ _ hc))

theorem filter_uuidRender (n : Nat) :
    (uuidRender n).filter (fun c => c != '-') = toHexPadded 32 n := by
  have hhex := mem_toHexPadded_isHex 32 n
  unfold uuidRender
  simp only [List.filter_append, List.filter_cons]
  norm_num
  rw [filter_ne_dash_of_hex (fun c hc => hhex c (List.take_subset _ _ hc)),
    filter_ne_dash_of_hex (fun c hc => hhex c (List.drop_subset _ _ (List.take_subset _ _ hc))),
    filter_ne_dash_of_hex (fun c hc => hhex c (List.drop_subset _ _ (List.take_subset _ _ hc))),
    filter_ne_dash_of_hex (fun c hc => hhex c (List.drop_subset _ _ (List.take_subset _ _ hc))),
    filter_ne_dash_of_hex (fun c hc => hhex c (List.drop_subset _ _ hc))]
  rw [show ((toHexPadded 32 n).drop 8).take 4 ++ (((toHexPadded 32 n).drop 12).take 4 ++
      (((toHexPadded 32 n).drop 16).take 4 ++ (toHexPadded 32 n).drop 20)) =
      (toHexPadded 32 n).drop 8 from ?_]
  · exact List.take_append_drop 8 (toHexPadded 32 n)
  · rw [show (toHexPadded 32 n).drop 12 = ((toHexPadded 32 n).drop 8).drop 4 by
      rw [List.drop_drop]]
    rw [show (toHexPadded 32 n).drop 16 = (((toHexPadded 32 n).drop 8).drop 4).drop 4 by
      rw [List.drop_drop, List.drop_drop]]
    rw [show (toHexPadded 32 n).drop 20 = ((((toHexPadded 32 n).drop 8).drop 4).drop 4).drop 4 by
      rw [List.drop_drop, List.drop_drop, List.drop_drop]]
    rw [List.take_append_drop, List.take_append_drop, List.take_append_drop]

theorem uuid_to_int_uuidRender {n : Nat} (h : n < 2 ^ 128) :
    uuid_to_int (uuidRender n) = some n := by
  rw [uuid_to_int_hex_dash (uuidRender_chars n), filter_uuidRender,
    length_toHexPadded, if_pos rfl, hexVal_toHexPadded,
    Nat.mod_eq_of_lt (by calc n < 2 ^ 128 := h
      _ = 16 ^ 32 := by norm_num)]

theorem concat_pieces {A1 A2 A3 A4 : List Char} (A5 : List Char) (m1 : A1.length = 8)
    (m2 : A2.length = 4) (m3 : A3.length = 4) (m4 : A4.length = 4) :
    (A1 ++ (A2 ++ (A3 ++ (A4 ++ A5)))).take 8 = A1 ∧
    ((A1 ++ (A2 ++ (A3 ++ (A4 ++ A5)))).drop 8).take 4 = A2 ∧
    ((A1 ++ (A2 ++ (A3 ++ (A4 ++ A5)))).drop 12).take 4 = A3 ∧
    ((A1 ++ (A2 ++ (A3 ++ (A4 ++ A5)))).drop 16).take 4 = A4 ∧
    (A1 ++ (A2 ++ (A3 ++ (A4 ++ A5)))).drop 20 = A5 := by
  have e8 : (A1 ++ (A2 ++ (A3 ++ (A4 ++ A5)))).drop 8 = A2 ++ (A3 ++ (A4 ++ A5)) :=
    drop_append_exact m1
  have e12 : (A1 ++ (A2 ++ (A3 ++ (A4 ++ A5)))).drop 12 = A3 ++ (A4 ++ A5) := by
    rw [show (12 : Nat) = 8 + 4 from rfl, ← List.drop_drop, e8, drop_append_exact m2]
  have e16 : (A1 ++ (A2 ++ (A3 ++ (A4 ++ A5)))).drop 16 = A4 ++ A5 := by
    rw [show (16 : Nat) = 12 + 4 from rfl, ← List.drop_drop, e12, drop_append_exact m3]
  have e20 : (A1 ++ (A2 ++ (A3 ++ (A4 ++ A5)))).drop 20 = A5 := by
    rw [show (20 : Nat) = 16 + 4 from rfl, ← List.drop_drop, e16, drop_append_exact m4]
  exact ⟨take_append_exact m1, by rw [e8]; exact take_append_exact m2,
    by rw [e12]; exact take_append_exact m3, by rw [e16]; exact take_append_exact m4, e20⟩

theorem uuid_roundtrip_of_valid {cs : List Char} (h : is_valid_uuid cs = true) :
    uuid_to_int cs = some (hexVal (cs.filter (fun c => c != '-'))) ∧
    hexVal (cs.filter (fun c => c != '-')) < 2 ^ 128 ∧
    int_to_uuid (hexVal (cs.filter (fun c => c != '-'))) = some (pyLower cs) := by
  obtain ⟨g1, g2, g3, g4, g5, hcs, hl1, hl2, hl3, hl4, hl5, hh1, hh2, hh3, hh4, hh5⟩ :=
    is_valid_uuid_decomp h
  have hchars := valid_uuid_chars h
  have hfilter : cs.filter (fun c => c != '-') = g1 ++ (g2 ++ (g3 ++ (g4 ++ g5))) := by
    rw [hcs]
    simp only [List.filter_append, List.filter_cons, bne_self_eq_false, Bool.false_eq_true,
      if_false, filter_ne_dash_of_hex hh1, filter_ne_dash_of_hex hh2,
      filter_ne_dash_of_hex hh3, filter_ne_dash_of_hex hh4, filter_ne_dash_of_hex hh5]
  have hflen : (cs.filter (fun c => c != '-')).length = 32 := by
    rw [hfilter]
    simp [hl1, hl2, hl3, hl4, hl5]
  have hfhex : ∀ c ∈ cs.filter (fun c => c != '-'), isHexDigit c = true := by
    rw [hfilter]
    intro c hc
    simp only [List.mem_append] at hc
    rcases hc with hc | hc | hc | hc | hc
    · exact hh1 c hc
    · exact hh2 c hc
    · exact hh3 c hc
    · exact hh4 c hc
    · exact hh5 c hc
  have hbound : hexVal (cs.filter (fun c => c != '-')) < 2 ^ 128 := by
    have hb := hexVal_lt_of_all_hex hfhex
    rw [hflen] at hb
    calc hexVal (cs.filter (fun c => c != '-')) < 16 ^ 32 := hb
      _ = 2 ^ 128 := by norm_num
  refine ⟨?_, hbound, ?_⟩
  · rw [uuid_to_int_hex_dash hchars, if_pos hflen]
  · unfold int_to_uuid
    rw [if_pos hbound]
    simp only [Option.some.injEq]
    have hmap : toHexPadded 32 (hexVal (cs.filter (fun c => c != '-'))) =
        (g1.map Char.toLower) ++ ((g2.map Char.toLower) ++ ((g3.map Char.toLower) ++
          ((g4.map Char.toLower) ++ (g5.map Char.toLower)))) := by
      conv_lhs => rw [← hflen]
      rw [toHexPadded_map_toLower hfhex, hfilter]
      simp [List.map_append]
    have m1 : (g1.map Char.toLower).length = 8 := by simp [hl1]
    have m2 : (g2.map Char.toLower).length = 4 := by simp [hl2]
    have m3 : (g3.map Char.toLower).length = 4 := by simp [hl3]
    have m4 : (g4.map Char.toLower).length = 4 := by simp [hl4]
    obtain ⟨p1, p2, p3, p4, p5⟩ := concat_pieces (g5.map Char.toLower) m1 m2 m3 m4
    unfold uuidRender
    rw [hmap, p1, p2, p3, p4, p5, hcs]
    simp [pyLower, List.map_append, show Char.toLower '-' = '-' from by decide]

/-! ### Arithmetic of the interpolation points -/

theorem div_step_mono {d m a b : Nat} (hab : a ≤ b) : d * a / m ≤ d * b / m :=
  Nat.div_le_div_right (Nat.mul_le_mul_left d hab)

theorem div_step_strict {d m a b : Nat} (hm : 0 < m) (hd : m ≤ d) (hab : a < b) :
    d * a / m < d * b / m := by
  have h1 : d * (a + 1) ≤ d * b := Nat.mul_le_mul_left d hab
  have h2 : d * a + m ≤ d * b := by
    have : d * (a + 1) = d * a + d := by ring
    omega
  calc d * a / m < d * a / m + 1 := by omega
    _ = (d * a + m) / m := (Nat.add_div_right _ hm).symm
    _ ≤ d * b / m := Nat.div_le_div_right h2

theorem pred_mul_div {m k : Nat} (hm : 0 < m) (hk1 : 1 ≤ k) (hk : k ≤ m) :
    (m - 1) * k / m = k - 1 := by
  apply Nat.div_eq_of_lt_le
  · zify [hk1, Nat.one_le_iff_ne_zero.mpr (Nat.pos_iff_ne_zero.mp hm)]
    nlinarith [hk]
  · have hksub : k - 1 + 1 = k := Nat.succ_pred_eq_of_pos hk1
    rw [hksub]
    zify [Nat.one_le_iff_ne_zero.mpr (Nat.pos_iff_ne_zero.mp hm)]
    nlinarith [hk1]

theorem div_step_strict_pred {d m a b : Nat} (hm : 2 ≤ m) (hd : m - 1 ≤ d) (ha : 1 ≤ a)
    (hab : a < b) (hb : b ≤ m - 1) : d * a / m < d * b / m := by
  rcases Nat.lt_or_ge d m with hdm | hdm
  · have hde : d = m - 1 := by omega
    subst hde
    rw [pred_mul_div (by omega) ha (by omega), pred_mul_div (by omega) (by omega) (by omega)]
    omega
  · exact div_step_strict (by omega) hdm hab

theorem div_lt_of_lt_of_pos {d m j : Nat} (hm : 0 < m) (hj : j < m) (hd : 0 < d) :
    d * j / m < d := by
  rw [Nat.div_lt_iff_lt_mul hm]
  nlinarith [hj, hd]

theorem div_le_of_le {d m j : Nat} (hm : 0 < m) (hj : j ≤ m) : d * j / m ≤ d := by
  calc d * j / m ≤ d * m / m := div_step_mono hj
    _ = d := Nat.mul_div_cancel d hm

/-! ### Properties of the shared interpolation core -/

theorem rangeSplitCore_length (s e : Int) (n : Nat) (incl : Bool) :
    (rangeSplitCore s e n incl).length = n := by
  unfold rangeSplitCore
  split <;> simp

theorem rangeSplitCore_incl_head {s e : Int} {n : Nat} (hn : 1 ≤ n) :
    (rangeSplitCore s e n true).head? = some s := by
  unfold rangeSplitCore
  rw [if_pos rfl, show n = (n - 1) + 1 from by omega, List.range_succ_eq_map]
  simp

theorem rangeSplitCore_incl_last {s e : Int} {n : Nat} (hn : 2 ≤ n) :
    (rangeSplitCore s e n true).getLast? = some e := by
  unfold rangeSplitCore
  rw [if_pos rfl, show n = (n - 1) + 1 from by omega, List.range_succ, List.map_append,
    List.map_singleton, List.getLast?_concat]
  simp only [Option.some.injEq]
  rw [if_neg (by omega), if_pos (by omega)]

theorem chain'_map_range {f : Nat → Int} {n : Nat} (h : ∀ i, i + 1 < n → f i < f (i + 1)) :
    List.Chain' (fun a b => a < b) ((List.range n).map f) := by
  cases n with
  | zero => simp
  | succ m =>
    rw [List.chain'_map, List.chain'_range_succ]
    intro i hi
    exact h i (by omega)

theorem rangeSplitCore_bounds {s e : Int} {n : Nat} {incl : Bool} (hlt : s < e)
    (hn : 2 ≤ n) : ∀ v ∈ rangeSplitCore s e n incl, s ≤ v ∧ v ≤ e := by
  have hd : (((e - s).toNat : Nat) : Int) = e - s := Int.toNat_of_nonneg (by omega)
  intro v hv
  unfold rangeSplitCore at hv
  generalize hD : (e - s).toNat = D at hd hv
  rcases incl with _ | _
  · rw [if_neg (by simp)] at hv
    simp only [List.mem_map, List.mem_range] at hv
    obtain ⟨i, hi, rfl⟩ := hv
    have h1 : D * (i + 1) / (n + 1) ≤ D := div_le_of_le (by omega) (by omega)
    generalize hq : D * (i + 1) / (n + 1) = q at h1 ⊢
    constructor <;> omega
  · rw [if_pos rfl] at hv
    simp only [List.mem_map, List.mem_range] at hv
    obtain ⟨i, hi, rfl⟩ := hv
    by_cases h0 : i = 0
    · rw [if_pos h0]
      omega
    · rw [if_neg h0]
      by_cases hlast : i = n - 1
      · rw [if_pos hlast]
        omega
      · rw [if_neg hlast]
        have h1 : D * i / (n - 1) ≤ D := div_le_of_le (by omega) (by omega)
        generalize hq : D * i / (n - 1) = q at h1 ⊢
        constructor <;> omega

theorem rangeSplitCore_excl_strict_bounds {s e : Int} {n : Nat} (hlt : s < e) :
    ∀ v ∈ rangeSplitCore s e n false, s ≤ v ∧ v < e := by
  have hd : (((e - s).toNat : Nat) : Int) = e - s := Int.toNat_of_nonneg (by omega)
  intro v hv
  unfold rangeSplitCore at hv
  generalize hD : (e - s).toNat = D at hd hv
  rw [if_neg (by simp)] at hv
  simp only [List.mem_map, List.mem_range] at hv
  obtain ⟨i, hi, rfl⟩ := hv
  have h1 : D * (i + 1) / (n + 1) < D :=
    div_lt_of_lt_of_pos (by omega) (by omega) (by omega)
  generalize hq : D * (i + 1) / (n + 1) = q at h1 ⊢
  constructor <;> omega

theorem rangeSplitCore_chain_incl {s e : Int} {n : Nat} (hlt : s < e) (hn : 2 ≤ n)
    (hgap : (n : Int) - 1 ≤ e - s) :
    List.Chain' (fun a b => a < b) (rangeSplitCore s e n true) := by
  have hd : (((e - s).toNat : Nat) : Int) = e - s := Int.toNat_of_nonneg (by omega)
  unfold rangeSplitCore
  rw [if_pos rfl]
  generalize hD : (e - s).toNat = D at hd ⊢
  have hdge : n - 1 ≤ D := by omega
  apply chain'_map_range
  intro i hi
  by_cases h0 : i = 0
  · subst h0
    rw [if_pos rfl, if_neg (by omega)]
    by_cases h2 : n = 2
    · rw [if_pos (by omega)]
      exact hlt
    · rw [if_neg (by omega)]
      have h1 : 1 ≤ D * 1 / (n - 1) := by
        rw [Nat.mul_one, Nat.one_le_div_iff (by omega)]
        omega
      generalize hq : D * 1 / (n - 1) = q at h1 ⊢
      omega
  · rw [if_neg h0, if_neg (by omega), if_neg (by omega)]
    by_cases hlast : i + 1 = n - 1
    · rw [if_pos hlast]
      have h1 : D * i / (n - 1) < D :=
        div_lt_of_lt_of_pos (by omega) (by omega) (by omega)
      generalize hq : D * i / (n - 1) = q at h1 ⊢
      omega
    · rw [if_neg hlast]
      have h1 : D * i / (n - 1) < D * (i + 1) / (n - 1) :=
        div_step_strict (by omega) (by omega) (by omega)
      generalize hq1 : D * i / (n - 1) = q1 at h1 ⊢
      generalize hq2 : D * (i + 1) / (n - 1) = q2 at h1 ⊢
      omega

theorem rangeSplitCore_chain_excl {s e : Int} {n : Nat} (hlt : s < e) (hn : 2 ≤ n)
    (hgap : (n : Int) ≤ e - s) :
    List.Chain' (fun a b => a < b) (rangeSplitCore s e n false) := by
  have hd : (((e - s).toNat : Nat) : Int) = e - s := Int.toNat_of_nonneg (by omega)
  unfold rangeSplitCore
  rw [if_neg (by simp)]
  generalize hD : (e - s).toNat = D at hd ⊢
  have hdge : n ≤ D := by omega
  apply chain'_map_range
  intro i hi
  have h1 : D * (i + 1) / (n + 1) < D * (i + 1 + 1) / (n + 1) :=
    div_step_strict_pred (by omega) (by omega) (by omega) (by omega) (by omega)
  generalize hq1 : D * (i + 1) / (n + 1) = q1 at h1 ⊢
  generalize hq2 : D * (i + 1 + 1) / (n + 1) = q2 at h1 ⊢
  omega

theorem rangeSplitCore_pairwise {s e : Int} {n : Nat} {incl : Bool} (hlt : s < e)
    (hn : 2 ≤ n) (hgap : (n : Int) - (if incl then 1 else 0) ≤ e - s) :
    List.Pairwise (fun a b => a < b) (rangeSplitCore s e n incl) := by
  rw [← List.chain'_iff_pairwise]
  rcases incl with _ | _
  · exact rangeSplitCore_chain_excl hlt hn (by simpa using hgap)
  · exact rangeSplitCore_chain_incl hlt hn (by simpa using hgap)

theorem chain'_map_range_le {f : Nat → Int} {n : Nat} (h : ∀ i, i + 1 < n → f i ≤ f (i + 1)) :
    List.Chain' (fun a b => a ≤ b) ((List.range n).map f) := by
  cases n with
  | zero => simp
  | succ m =>
    rw [List.chain'_map, List.chain'_range_succ]
    intro i hi
    exact h i (by omega)

theorem rangeSplitCore_chain_le {s e : Int} {n : Nat} {incl : Bool} (hlt : s < e)
    (hn : 2 ≤ n) :
    List.Chain' (fun a b => a ≤ b) (rangeSplitCore s e n incl) := by
  have hd : (((e - s).toNat : Nat) : Int) = e - s := Int.toNat_of_nonneg (by omega)
  unfold rangeSplitCore
  generalize hD : (e - s).toNat = D at hd ⊢
  rcases incl with _ | _
  · rw [if_neg (by simp)]
    apply chain'_map_range_le
    intro i hi
    have h1 : D * (i + 1) / (n + 1) ≤ D * (i + 1 + 1) / (n + 1) := div_step_mono (by omega)
    generalize hq1 : D * (i + 1) / (n + 1) = q1 at h1 ⊢
    generalize hq2 : D * (i + 1 + 1) / (n + 1) = q2 at h1 ⊢
    omega
  · rw [if_pos rfl]
    apply chain'_map_range_le
    intro i hi
    by_cases h0 : i = 0
    · subst h0
      rw [if_pos rfl, if_neg (by omega)]
      by_cases h2 : 0 + 1 = n - 1
      · rw [if_pos h2]
        omega
      · rw [if_neg h2]
        have h1 : (0 : Int) ≤ ((D * (0 + 1) / (n - 1) : Nat) : Int) := Int.natCast_nonneg _
        generalize hq : ((D * (0 + 1) / (n - 1) : Nat) : Int) = q at h1 ⊢
        omega
    · rw [if_neg h0, if_neg (show ¬ i = n - 1 by omega), if_neg (show ¬ i + 1 = 0 by omega)]
      by_cases hlast : i + 1 = n - 1
      · rw [if_pos hlast]
        have h1 : D * i / (n - 1) ≤ D := div_le_of_le (by omega) (by omega)
        generalize hq : D * i / (n - 1) = q at h1 ⊢
        omega
      · rw [if_neg hlast]
        have h1 : D * i / (n - 1) ≤ D * (i + 1) / (n - 1) := div_step_mono (by omega)
        generalize hq1 : D * i / (n - 1) = q1 at h1 ⊢
        generalize hq2 : D * (i + 1) / (n - 1) = q2 at h1 ⊢
        omega

theorem rangeSplitCore_pairwise_le {s e : Int} {n : Nat} {incl : Bool} (hlt : s < e)
    (hn : 2 ≤ n) :
    List.Pairwise (fun a b : Int => a ≤ b) (rangeSplitCore s e n incl) :=
  List.chain'_iff_pairwise.mp (rangeSplitCore_chain_le hlt hn)

theorem chain_lt_head_last : ∀ (l : List Int) (x y : Int),
    List.Chain' (fun a b => a < b) l →
    l.head? = some x → l.getLast? = some y → x + ((l.length - 1 : Nat) : Int) ≤ y := by
  intro l
  induction l with
  | nil =>
    intro x y _ hh _
    simp at hh
  | cons a t ih =>
    intro x y hc hh hl
    have hax : a = x := by simpa using hh
    cases t with
    | nil =>
      have hay : a = y := by simpa using hl
      simp only [List.length_cons, List.length_nil]
      omega
    | cons b t' =>
      rw [List.chain'_cons] at hc
      rw [List.getLast?_cons_cons] at hl
      have hspan := ih b y hc.2 rfl hl
      have hab : a < b := hc.1
      simp only [List.length_cons] at hspan ⊢
      omega

theorem rangeSplitCore_excl_head {s e : Int} {n : Nat} (hn : 1 ≤ n) :
    (rangeSplitCore s e n false).head? =
      some (s + (((e - s).toNat * (0 + 1) / (n + 1) : Nat) : Int)) := by
  unfold rangeSplitCore
  rw [if_neg (by simp), show n = (n - 1) + 1 from by omega, List.range_succ_eq_map]
  simp

theorem rangeSplitCore_excl_last {s e : Int} {n : Nat} (hn : 1 ≤ n) :
    (rangeSplitCore s e n false).getLast? =
      some (s + (((e - s).toNat * (n - 1 + 1) / (n + 1) : Nat) : Int)) := by
  unfold rangeSplitCore
  rw [if_neg (by simp), show n = (n - 1) + 1 from by omega, List.range_succ, List.map_append,
    List.map_singleton, List.getLast?_concat]
  simp only [Option.some.injEq]
  rw [show (n - 1 + 1) - 1 = n - 1 from by omega]

theorem rangeSplitCore_not_chain_incl {s e : Int} {n : Nat} (hlt : s < e)
    (hn : 2 ≤ n) (hgap : e - s < (n : Int) - 1) :
    ¬ List.Chain' (fun a b => a < b) (rangeSplitCore s e n true) := by
  intro hc
  have hh := rangeSplitCore_incl_head (s := s) (e := e) (n := n) (by omega)
  have hl := rangeSplitCore_incl_last (s := s) (e := e) (n := n) hn
  have hspan := chain_lt_head_last _ _ _ hc hh hl
  rw [rangeSplitCore_length] at hspan
  omega

theorem rangeSplitCore_not_chain_excl {s e : Int} {n : Nat} (hlt : s < e)
    (hn : 2 ≤ n) (hgap : e - s < (n : Int)) :
    ¬ List.Chain' (fun a b => a < b) (rangeSplitCore s e n false) := by
  intro hc
  have hx := rangeSplitCore_excl_head (s := s) (e := e) (n := n) (by omega)
  have hy := rangeSplitCore_excl_last (s := s) (e := e) (n := n) (by omega)
  have hspan := chain_lt_head_last _ _ _ hc hx hy
  rw [rangeSplitCore_length] at hspan
  have hd : (((e - s).toNat : Nat) : Int) = e - s := Int.toNat_of_nonneg (by omega)
  generalize hD : (e - s).toNat = D at hd hspan
  have h1 : D * (n - 1 + 1) / (n + 1) < D :=
    div_lt_of_lt_of_pos (by omega) (by omega) (by omega)
  have h0 : (0 : Int) ≤ ((D * (0 + 1) / (n + 1) : Nat) : Int) := Int.natCast_nonneg _
  generalize hq1 : D * (0 + 1) / (n + 1) = q1 at hspan h0
  generalize hq2 : D * (n - 1 + 1) / (n + 1) = q2 at hspan h1
  omega

theorem rangeSplitCore_pairwise_iff {s e : Int} {n : Nat} {incl : Bool} (hlt : s < e)
    (hn : 2 ≤ n) :
    (List.Pairwise (fun a b : Int => a < b) (rangeSplitCore s e n incl) ↔
      (n : Int) - (if incl then 1 else 0) ≤ e - s) := by
  constructor
  · intro hp
    by_contra hgap
    push_neg at hgap
    rcases incl with _ | _
    · exact rangeSplitCore_not_chain_excl hlt hn (by simpa using hgap)
        (List.chain'_iff_pairwise.mpr hp)
    · exact rangeSplitCore_not_chain_incl hlt hn (by simpa using hgap)
        (List.chain'_iff_pairwise.mpr hp)
  · intro hgap
    exact rangeSplitCore_pairwise hlt hn hgap

theorem exists_adjacent_eq_of_not_chain {α : Type} [LinearOrder α] :
    ∀ (l : List α), List.Chain' (fun a b => a ≤ b) l →
    ¬ List.Chain' (fun a b => a < b) l →
    ∃ i a, l.get? i = some a ∧ l.get? (i + 1) = some a := by
  intro l
  induction l with
  | nil =>
    intro _ hlt
    exact absurd List.chain'_nil hlt
  | cons a t ih =>
    intro hle hlt
    cases t with
    | nil => exact absurd (List.chain'_singleton a) hlt
    | cons b t' =>
      rw [List.chain'_cons] at hle
      by_cases hab : a = b
      · exact ⟨0, a, rfl, by simp [hab]⟩
      · have hab' : a < b := lt_of_le_of_ne hle.1 hab
        have hlt' : ¬ List.Chain' (fun x y => x < y) (b :: t') := by
          intro hcc
          exact hlt (List.chain'_cons.mpr ⟨hab', hcc⟩)
        obtain ⟨i, c, h1, h2⟩ := ih hle.2 hlt'
        exact ⟨i + 1, c, h1, h2⟩

/-! ### Success characterizations of the generators -/

theorem uuid_to_int_lt {cs : List Char} {k : Nat} (h : uuid_to_int cs = some k) :
    k < 2 ^ 128 := by
  unfold uuid_to_int at h
  by_cases hl : (pyUuidNormalize cs).length = 32
  · rw [if_pos hl] at h
    cases hp : pyIntHex16 (pyUuidNormalize cs) with
    | none =>
      rw [hp] at h
      simp at h
    | some v =>
      rw [hp, Option.some_bind] at h
      by_cases hc : 0 ≤ v ∧ v < 2 ^ 128
      · rw [if_pos hc] at h
        have hk := Option.some.inj h
        omega
      · rw [if_neg hc] at h
        simp at h
  · rw [if_neg hl] at h
    simp at h

theorem mapToUuids_ok {pts : List Int} (h : ∀ p ∈ pts, 0 ≤ p ∧ p < 2 ^ 128) :
    mapToUuids pts = Except.ok (pts.map (fun p => uuidRender p.toNat)) := by
  induction pts with
  | nil => rfl
  | cons p ps ih =>
    rw [mapToUuids]
    have hp := h p (by simp)
    have hlt : p.toNat < 2 ^ 128 := by omega
    rw [show int_to_uuid p.toNat = some (uuidRender p.toNat) from by
      unfold int_to_uuid; rw [if_pos hlt]]
    rw [ih (fun q hq => h q (by simp [hq]))]
    rfl

theorem generate_int64_ok {s e num_splits : Int} {incl : Bool} (hlt : s < e)
    (hn : 2 ≤ num_splits) :
    generate_int64_range_splits s e num_splits incl =
      Except.ok ((rangeSplitCore s e num_splits.toNat incl).map pyStrOfInt, []) := by
  unfold generate_int64_range_splits
  rw [if_neg (by omega), if_neg (by omega)]
  have hwarn : (if incl then
      if s + (((e - s).toNat * (num_splits.toNat - 1) / (num_splits.toNat - 1) : Nat) : Int) ≠ e
      then ["End boundary adjusted due to integer division rounding"] else []
    else ([] : List String)) = [] := by
    rcases incl with _ | _
    · rfl
    · rw [if_pos rfl]
      have hc : (e - s).toNat * (num_splits.toNat - 1) / (num_splits.toNat - 1) = (e - s).toNat :=
        Nat.mul_div_cancel _ (by omega)
      rw [hc, if_neg (by
        have hd : (((e - s).toNat : Nat) : Int) = e - s := Int.toNat_of_nonneg (by omega)
        omega)]
  rw [hwarn]

theorem generate_uuid_ok {su eu : List Char} (num_splits : Int) (incl : Bool)
    {si ei : Nat} (hsu : is_valid_uuid su = true) (heu : is_valid_uuid eu = true)
    (hsi : uuid_to_int su = some si) (hei : uuid_to_int eu = some ei)
    (hlt : si < ei) (hn : 2 ≤ num_splits) :
    generate_uuid_range_splits su eu num_splits incl =
      Except.ok (((rangeSplitCore (si : Int) (ei : Int) num_splits.toNat incl).map
        (fun p => uuidRender p.toNat)), []) := by
  unfold generate_uuid_range_splits
  rw [if_neg (by rw [hsu]; simp), if_neg (by rw [heu]; simp), hsi, hei]
  have hbounds : ∀ p ∈ rangeSplitCore (si : Int) (ei : Int) num_splits.toNat incl,
      0 ≤ p ∧ p < 2 ^ 128 := by
    intro p hp
    have hb := rangeSplitCore_bounds (s := (si : Int)) (e := (ei : Int))
      (by exact_mod_cast hlt) (by omega) p hp
    have hlt2 : ei < 2 ^ 128 := uuid_to_int_lt hei
    constructor
    · have : (0 : Int) ≤ (si : Int) := Int.natCast_nonneg _
      omega
    · have : ((ei : Nat) : Int) < ((2 ^ 128 : Nat) : Int) := by exact_mod_cast hlt2
      have h2 : ((2 ^ 128 : Nat) : Int) = 2 ^ 128 := by norm_num
      omega
  dsimp only
  rw [if_neg (by omega), if_neg (by omega), mapToUuids_ok hbounds]

/-! ### Evaluation of the type parser and the range-type detector -/

theorem rangeSplitCore_excl_get {s e : Int} {n i : Nat} (hi : i < n) :
    (rangeSplitCore s e n false).get? i =
      some (s + (((e - s).toNat * (i + 1) / (n + 1) : Nat) : Int)) := by
  unfold rangeSplitCore
  rw [if_neg (by simp), List.get?_map, List.get?_range hi]
  rfl

theorem isPrefixOf_append_self (l r : List Char) : l.isPrefixOf (l ++ r) = true :=
  List.isPrefixOf_iff_prefix.mpr ⟨r, rfl⟩

theorem pyUpper_append (a b : List Char) : pyUpper (a ++ b) = pyUpper a ++ pyUpper b := by
  simp [pyUpper]

theorem pyUpper_cons (c : Char) (l : List Char) :
    pyUpper (c :: l) = Char.toUpper c :: pyUpper l := by
  simp [pyUpper]

theorem drop_tag_cons {p : List Char} {x : Char} {X : List Char} {k : Nat}
    (hk : p.length = k) : (p ++ x :: X).drop (k + 1) = X := by
  rw [show k + 1 = k + 1 from rfl, ← List.drop_drop, drop_append_exact hk, List.drop_one,
    List.tail_cons]

theorem parenArg_digits {tagU p ds : List Char} (hp : pyUpper p = tagU) (hds : ds ≠ [])
    (hall : ∀ c ∈ ds, isDigitChar c = true) :
    parenArg tagU (p ++ '(' :: (ds ++ [')'])) = some (ParenArg.num (decVal ds)) := by
  unfold parenArg
  have hup : pyUpper (p ++ '(' :: (ds ++ [')'])) =
      tagU ++ '(' :: pyUpper (ds ++ [')']) := by
    rw [pyUpper_append, pyUpper_cons, hp, show Char.toUpper '(' = '(' from by decide]
  rw [hup, if_pos (by
    rw [List.append_cons tagU '(' (pyUpper (ds ++ [')']))]
    exact isPrefixOf_append_self _ _)]
  have hplen : p.length = tagU.length := by
    rw [← hp]
    simp [pyUpper]
  rw [drop_tag_cons hplen, takeWhile_append_all ds [')'] hall,
    show List.takeWhile isDigitChar [')'] = [] from by decide, List.append_nil]
  rw [if_neg (by simp [List.isEmpty_iff, hds])]
  rw [if_pos (by rw [drop_append_exact rfl]; rfl)]

theorem parenArg_max {tagU p m3 : List Char} (hp : pyUpper p = tagU)
    (hm : pyUpper m3 = ['M', 'A', 'X']) :
    parenArg tagU (p ++ '(' :: (m3 ++ [')'])) = some ParenArg.maxTag := by
  unfold parenArg
  have hup : pyUpper (p ++ '(' :: (m3 ++ [')'])) =
      tagU ++ '(' :: pyUpper (m3 ++ [')']) := by
    rw [pyUpper_append, pyUpper_cons, hp, show Char.toUpper '(' = '(' from by decide]
  rw [hup, if_pos (by
    rw [List.append_cons tagU '(' (pyUpper (m3 ++ [')']))]
    exact isPrefixOf_append_self _ _)]
  have hplen : p.length = tagU.length := by
    rw [← hp]
    simp [pyUpper]
  rw [drop_tag_cons hplen]
  obtain ⟨c1, c2, c3, hm3⟩ : ∃ c1 c2 c3, m3 = [c1, c2, c3] := by
    have hl : m3.length = 3 := by
      have := congrArg List.length hm
      simpa [pyUpper] using this
    rcases m3 with _ | ⟨c1, _ | ⟨c2, _ | ⟨c3, _ | _⟩⟩⟩ <;> simp at hl
    exact ⟨c1, c2, c3, rfl⟩
  subst hm3
  have hc1 : Char.toUpper c1 = 'M' := by
    simpa [pyUpper] using congrArg List.head? hm
  have hc1n : isDigitChar c1 = false := by
    have ht := congrArg Char.toNat hc1
    rw [toNat_toUpper, show ('M').toNat = 77 from by decide] at ht
    simp only [isDigitChar, decide_eq_false_iff_not]
    intro hcon
    split_ifs at ht <;> omega
  have hTW : List.takeWhile isDigitChar ([c1, c2, c3] ++ [')']) = [] := by
    rw [show ([c1, c2, c3] ++ [')'] : List Char) = c1 :: ([c2, c3] ++ [')']) from rfl,
      List.takeWhile_cons, if_neg (by simp [hc1n])]
  rw [hTW, if_pos (by simp), if_pos ?hcond]
  case hcond =>
    refine ⟨?_, rfl⟩
    rw [show (([c1, c2, c3] ++ [')']).take 3 : List Char) = [c1, c2, c3] from rfl]
    exact hm

theorem detect_INT64 {t : List Char} (h : pyUpper t = "INT64".data)
    (sv : Option (List Char)) :
    detect_range_type t sv = (some SupportedRangeType.INT64, none) := by
  unfold detect_range_type
  rw [if_pos h]

theorem pyUpper_length_tag {p tagU : List Char} (hp : pyUpper p = tagU) :
    p.length = tagU.length := by
  have hl := congrArg List.length hp
  simpa [pyUpper] using hl

theorem not_int64_of_paren {p R tagU : List Char} (hp : pyUpper p = tagU)
    (htag : 5 ≤ tagU.length) : pyUpper (p ++ '(' :: R) ≠ "INT64".data := by
  intro hcon
  have hplen := pyUpper_length_tag hp
  have hlen2 : (pyUpper (p ++ '(' :: R)).length = p.length + R.length + 1 := by
    simp only [pyUpper, List.length_map, List.length_append, List.length_cons]
    omega
  rw [hcon] at hlen2
  have h5 : ("INT64".data).length = 5 := by decide
  omega

theorem tag_isPrefixOf {p R tagU : List Char} (hp : pyUpper p = tagU) :
    (tagU).isPrefixOf (pyUpper (p ++ '(' :: R)) = true := by
  rw [pyUpper_append, pyUpper_cons, hp]
  exact isPrefixOf_append_self _ _

theorem string_not_isPrefixOf_bytes {p R : List Char} (hp : pyUpper p = "BYTES".data) :
    ("STRING".data).isPrefixOf (pyUpper (p ++ '(' :: R)) = false := by
  rw [pyUpper_append, pyUpper_cons, hp]
  rfl

theorem detect_STRING_digits {p ds : List Char} (hp : pyUpper p = "STRING".data)
    (hds : ds ≠ []) (hall : ∀ c ∈ ds, isDigitChar c = true) (sv : Option (List Char)) :
    detect_range_type (p ++ '(' :: (ds ++ [')'])) sv =
      (if decVal ds ≤ 35 then
        (none, some ("Column length (" ++ toString (decVal ds) ++
          ") too short for UUIDs (need greater than 35)"))
      else match sv with
        | some v =>
          if is_valid_uuid v = false then (none, some (invalidUuidMsg v))
          else (some SupportedRangeType.STRING_UUID, none)
        | none => (some SupportedRangeType.STRING_UUID, none)) := by
  unfold detect_range_type
  rw [if_neg (not_int64_of_paren hp (by decide)), if_pos (tag_isPrefixOf hp),
    parenArg_digits hp hds hall]

theorem detect_STRING_max {p m3 : List Char} (hp : pyUpper p = "STRING".data)
    (hm : pyUpper m3 = ['M', 'A', 'X']) (sv : Option (List Char)) :
    detect_range_type (p ++ '(' :: (m3 ++ [')'])) sv =
      (match sv with
        | some v =>
          if is_valid_uuid v = false then (none, some (invalidUuidMsg v))
          else (some SupportedRangeType.STRING_UUID, none)
        | none => (some SupportedRangeType.STRING_UUID, none)) := by
  unfold detect_range_type
  rw [if_neg (not_int64_of_paren hp (by decide)), if_pos (tag_isPrefixOf hp),
    parenArg_max hp hm]
  rfl

theorem detect_BYTES_digits {p ds : List Char} (hp : pyUpper p = "BYTES".data)
    (hds : ds ≠ []) (hall : ∀ c ∈ ds, isDigitChar c = true) (sv : Option (List Char)) :
    detect_range_type (p ++ '(' :: (ds ++ [')'])) sv =
      (if decVal ds ≤ 15 then
        (none, some ("Column length (" ++ toString (decVal ds) ++
          ") too short for UUIDs (need greater than 15)"))
      else match sv with
        | some v =>
          if is_valid_uuid v = false then (none, some (invalidUuidMsg v))
          else (some SupportedRangeType.BYTES_UUID, none)
        | none => (some SupportedRangeType.BYTES_UUID, none)) := by
  unfold detect_range_type
  rw [if_neg (not_int64_of_paren hp (by decide)),
    if_neg (by rw [string_not_isPrefixOf_bytes hp]; simp),
    if_pos (tag_isPrefixOf hp), parenArg_digits hp hds hall]

theorem detect_BYTES_max {p m3 : List Char} (hp : pyUpper p = "BYTES".data)
    (hm : pyUpper m3 = ['M', 'A', 'X']) (sv : Option (List Char)) :
    detect_range_type (p ++ '(' :: (m3 ++ [')'])) sv =
      (match sv with
        | some v =>
          if is_valid_uuid v = false then (none, some (invalidUuidMsg v))
          else (some SupportedRangeType.BYTES_UUID, none)
        | none => (some SupportedRangeType.BYTES_UUID, none)) := by
  unfold detect_range_type
  rw [if_neg (not_int64_of_paren hp (by decide)),
    if_neg (by rw [string_not_isPrefixOf_bytes hp]; simp),
    if_pos (tag_isPrefixOf hp), parenArg_max hp hm]
  rfl

theorem detect_STRING_noparse {t : List Char} (hni : pyUpper t ≠ "INT64".data)
    (hpre : ("STRING".data).isPrefixOf (pyUpper t) = true)
    (hparen : parenArg "STRING".data t = none) (sv : Option (List Char)) :
    detect_range_type t sv = (none, some ("Could not parse STRING type: " ++ String.mk t)) := by
  unfold detect_range_type
  rw [if_neg hni, if_pos hpre, hparen]

theorem detect_BYTES_noparse {t : List Char} (hni : pyUpper t ≠ "INT64".data)
    (hstr : ("STRING".data).isPrefixOf (pyUpper t) = false)
    (hpre : ("BYTES".data).isPrefixOf (pyUpper t) = true)
    (hparen : parenArg "BYTES".data t = none) (sv : Option (List Char)) :
    detect_range_type t sv = (none, some ("Could not parse BYTES type: " ++ String.mk t)) := by
  unfold detect_range_type
  rw [if_neg hni, if_neg (by rw [hstr]; simp), if_pos hpre, hparen]

theorem detect_not_supported {t : List Char} (hni : pyUpper t ≠ "INT64".data)
    (hstr : ("STRING".data).isPrefixOf (pyUpper t) = false)
    (hbyt : ("BYTES".data).isPrefixOf (pyUpper t) = false) (sv : Option (List Char)) :
    detect_range_type t sv = (none, some ("Column type '" ++ String.mk t ++
      "' not supported. Supported: INT64, STRING(>35) with UUIDs, BYTES(>15) with UUIDs.")) := by
  unfold detect_range_type
  rw [if_neg hni, if_neg (by rw [hstr]; simp), if_neg (by rw [hbyt]; simp)]

theorem detect_range_type_cases (t : List Char) (sv : Option (List Char)) :
    (∃ rt, detect_range_type t sv = (some rt, none)) ∨
      (∃ m, detect_range_type t sv = (none, some m)) := by
  unfold detect_range_type
  repeat' split
  all_goals first
    | exact Or.inl ⟨_, rfl⟩
    | exact Or.inr ⟨_, rfl⟩

/-! ### Evaluation of the request validator -/

theorem validate_composite {schema : EntityKeySchema} (h : schema.is_composite = true)
    (s e : List Char) :
    validate_range_request schema s e =
      ⟨false, none,
        some "Range splits are not supported for composite keys. Please add splits individually."⟩ := by
  unfold validate_range_request
  rw [if_pos h]

theorem validate_no_columns {schema : EntityKeySchema} (h1 : schema.is_composite = false)
    (h2 : schema.key_columns = []) (s e : List Char) :
    validate_range_request schema s e =
      ⟨false, none, some "No key columns found in schema"⟩ := by
  unfold validate_range_request
  rw [if_neg (by simp [h1]), h2]

theorem validate_detect_error {schema : EntityKeySchema} {col : KeyColumnInfo}
    {rest : List KeyColumnInfo} {s e : List Char} {x : Option SupportedRangeType}
    {m : String} (h1 : schema.is_composite = false)
    (h2 : schema.key_columns = col :: rest)
    (hdet : detect_range_type col.spanner_type (some s) = (x, some m)) :
    validate_range_request schema s e = ⟨false, none, some m⟩ := by
  unfold validate_range_request
  rw [if_neg (by simp [h1]), h2]
  dsimp only
  rw [hdet]

theorem validate_int64_core {schema : EntityKeySchema} {col : KeyColumnInfo}
    {rest : List KeyColumnInfo} (s e : List Char) (h1 : schema.is_composite = false)
    (h2 : schema.key_columns = col :: rest)
    (hdet : detect_range_type col.spanner_type (some s) =
      (some SupportedRangeType.INT64, none)) :
    validate_range_request schema s e =
      (match pyIntDec s, pyIntDec e with
        | some si, some ei =>
          if si ≥ ei then
            ⟨false, some SupportedRangeType.INT64, some "Start value must be less than end value"⟩
          else ⟨true, some SupportedRangeType.INT64, none⟩
        | _, _ =>
          ⟨false, some SupportedRangeType.INT64,
            some ("Invalid integer value(s): start='" ++ String.mk s ++ "', end='" ++
              String.mk e ++ "'")⟩) := by
  unfold validate_range_request
  rw [if_neg (by simp [h1]), h2]
  dsimp only
  rw [hdet]
  dsimp only
  rw [if_pos rfl]

theorem validate_uuid_core {schema : EntityKeySchema} {col : KeyColumnInfo}
    {rest : List KeyColumnInfo} {rt : SupportedRangeType} (s e : List Char)
    (hrt : rt = SupportedRangeType.STRING_UUID ∨ rt = SupportedRangeType.BYTES_UUID)
    (h1 : schema.is_composite = false) (h2 : schema.key_columns = col :: rest)
    (hdet : detect_range_type col.spanner_type (some s) = (some rt, none)) :
    validate_range_request schema s e =
      (if is_valid_uuid s = false then ⟨false, some rt, some (invalidUuidMsg s)⟩
       else if is_valid_uuid e = false then ⟨false, some rt, some (invalidUuidMsg e)⟩
       else match uuid_to_int s, uuid_to_int e with
        | some si, some ei =>
          if si ≥ ei then ⟨false, some rt, some "Start value must be less than end value"⟩
          else ⟨true, some rt, none⟩
        | _, _ => ⟨false, some rt, some "badly formed hexadecimal UUID string"⟩) := by
  unfold validate_range_request
  rw [if_neg (by simp [h1]), h2]
  dsimp only
  rw [hdet]
  dsimp only
  rw [if_neg (by rcases hrt with rfl | rfl <;> simp), if_pos (by
    rcases hrt with rfl | rfl
    · exact Or.inl rfl
    · exact Or.inr rfl)]

theorem validate_range_type_of_detect {schema : EntityKeySchema} {col : KeyColumnInfo}
    {rest : List KeyColumnInfo} {t : SupportedRangeType} (s e : List Char)
    (h1 : schema.is_composite = false) (h2 : schema.key_columns = col :: rest)
    (hdet : detect_range_type col.spanner_type (some s) = (some t, none)) :
    (validate_range_request schema s e).range_type = some t := by
  rcases t with _ | _ | _
  · rw [validate_int64_core s e h1 h2 hdet]
    rcases pyIntDec s with _ | si <;> rcases pyIntDec e with _ | ei <;> dsimp only
    split <;> rfl
  · rw [validate_uuid_core s e (Or.inl rfl) h1 h2 hdet]
    by_cases hs : is_valid_uuid s = false
    · rw [if_pos hs]
    · rw [if_neg hs]
      by_cases he : is_valid_uuid e = false
      · rw [if_pos he]
      · rw [if_neg he]
        rcases uuid_to_int s with _ | si <;> rcases uuid_to_int e with _ | ei <;> dsimp only
        split <;> rfl
  · rw [validate_uuid_core s e (Or.inr rfl) h1 h2 hdet]
    by_cases hs : is_valid_uuid s = false
    · rw [if_pos hs]
    · rw [if_neg hs]
      by_cases he : is_valid_uuid e = false
      · rw [if_pos he]
      · rw [if_neg he]
        rcases uuid_to_int s with _ | si <;> rcases uuid_to_int e with _ | ei <;> dsimp only
        split <;> rfl

theorem map_uuidRender_roundtrip {l : List Int} (h : ∀ p ∈ l, 0 ≤ p ∧ p < 2 ^ 128) :
    (l.map (fun p => uuidRender p.toNat)).map uuid_to_int = (l.map Int.toNat).map some := by
  induction l with
  | nil => rfl
  | cons p ps ih =>
    simp only [List.map_cons]
    rw [uuid_to_int_uuidRender (show p.toNat < 2 ^ 128 by have := h p (by simp); omega)]
    rw [ih (fun q hq => h q (by simp [hq]))]

/-! ### Claim theorems -/

set_option maxHeartbeats 1000000

/-- C1 (counterexample): the sequences are not always strictly ascending.
With `start = 0`, `end = 1`, `num_splits = 2` and boundaries excluded, both
interior points are `start + floor(step * i) = 0`, so the generator returns
`["0", "0"]`, which is not strictly ascending in the integer domain. -/
theorem c1_counterexample :
    generate_int64_range_splits 0 1 2 false = Except.ok ([['0'], ['0']], []) ∧
    rangeSplitCore 0 1 2 false = [0, 0] ∧
    ¬ List.Pairwise (fun a b : Int => a < b) (rangeSplitCore 0 1 2 false) := by
  refine ⟨by decide, by decide, ?_⟩
  intro h
  rw [show rangeSplitCore 0 1 2 false = [0, 0] from by decide] at h
  have h0 := (List.pairwise_cons.mp h).1 0 (by simp)
  omega

/-- C1 (amended): for `start < end` and `num_splits ≥ 2`, the integer and
UUID generators (the latter read through `uuid_to_int` into the integer
domain) always produce weakly non-decreasing sequences; the sequences are
strictly ascending exactly when the range is wide enough for distinct
points — `end - start ≥ num_splits - 1` with boundaries included,
`end - start ≥ num_splits` with boundaries excluded — and below that
threshold some adjacent pair of values is equal, as the repository's own
tests acknowledge. -/
theorem c1_amended (s e num_splits : Int) (incl : Bool) (su eu : List Char)
    (si ei : Nat) (hlt : s < e) (hn : 2 ≤ num_splits)
    (hsu : is_valid_uuid su = true) (heu : is_valid_uuid eu = true)
    (hsi : uuid_to_int su = some si) (hei : uuid_to_int eu = some ei)
    (hult : si < ei) :
    (generate_int64_range_splits s e num_splits incl =
        Except.ok ((rangeSplitCore s e num_splits.toNat incl).map pyStrOfInt, []) ∧
      List.Pairwise (fun a b : Int => a ≤ b) (rangeSplitCore s e num_splits.toNat incl) ∧
      (List.Pairwise (fun a b : Int => a < b) (rangeSplitCore s e num_splits.toNat incl) ↔
        num_splits - (if incl then 1 else 0) ≤ e - s) ∧
      (¬ (num_splits - (if incl then 1 else 0) ≤ e - s) →
        ∃ i a, (rangeSplitCore s e num_splits.toNat incl).get? i = some a ∧
          (rangeSplitCore s e num_splits.toNat incl).get? (i + 1) = some a)) ∧
    (∃ us pts, generate_uuid_range_splits su eu num_splits incl = Except.ok (us, []) ∧
      us.map uuid_to_int = pts.map some ∧
      List.Pairwise (fun a b : Nat => a ≤ b) pts ∧
      (List.Pairwise (fun a b : Nat => a < b) pts ↔
        num_splits - (if incl then 1 else 0) ≤ (ei : Int) - (si : Int)) ∧
      (¬ (num_splits - (if incl then 1 else 0) ≤ (ei : Int) - (si : Int)) →
        ∃ i a, pts.get? i = some a ∧ pts.get? (i + 1) = some a)) := by
  have hn2 : 2 ≤ num_splits.toNat := by omega
  have hcast : ((num_splits.toNat : Nat) : Int) = num_splits := by omega
  have hiffI : List.Pairwise (fun a b : Int => a < b)
      (rangeSplitCore s e num_splits.toNat incl) ↔
      num_splits - (if incl then 1 else 0) ≤ e - s := by
    rw [rangeSplitCore_pairwise_iff hlt hn2, hcast]
  have hleI : List.Pairwise (fun a b : Int => a ≤ b)
      (rangeSplitCore s e num_splits.toNat incl) := rangeSplitCore_pairwise_le hlt hn2
  constructor
  · refine ⟨generate_int64_ok hlt hn, hleI, hiffI, ?_⟩
    intro hgap
    apply exists_adjacent_eq_of_not_chain _ (List.chain'_iff_pairwise.mpr hleI)
    intro hc
    exact hgap (hiffI.mp (List.chain'_iff_pairwise.mp hc))
  · have hult2 : ((si : Nat) : Int) < ((ei : Nat) : Int) := by exact_mod_cast hult
    have hgen := generate_uuid_ok num_splits incl hsu heu hsi hei hult hn
    have hlt128 : ei < 2 ^ 128 := uuid_to_int_lt hei
    have hbnd : ∀ v ∈ rangeSplitCore (si : Int) (ei : Int) num_splits.toNat incl,
        (si : Int) ≤ v ∧ v ≤ (ei : Int) := rangeSplitCore_bounds hult2 hn2
    have hmap2 : ((rangeSplitCore (si : Int) (ei : Int) num_splits.toNat incl).map
        (fun p => uuidRender p.toNat)).map uuid_to_int =
        ((rangeSplitCore (si : Int) (ei : Int) num_splits.toNat incl).map Int.toNat).map some := by
      apply map_uuidRender_roundtrip
      intro p hp
      have hb := hbnd p hp
      omega
    have hleN : List.Pairwise (fun a b : Nat => a ≤ b)
        ((rangeSplitCore (si : Int) (ei : Int) num_splits.toNat incl).map Int.toNat) := by
      rw [List.pairwise_map]
      refine List.Pairwise.imp_of_mem ?_ (rangeSplitCore_pairwise_le hult2 hn2)
      intro a b ha hb hab
      have hba := hbnd a ha
      have hbb := hbnd b hb
      omega
    have hiffN : List.Pairwise (fun a b : Nat => a < b)
        ((rangeSplitCore (si : Int) (ei : Int) num_splits.toNat incl).map Int.toNat) ↔
        num_splits - (if incl then 1 else 0) ≤ (ei : Int) - (si : Int) := by
      constructor
      · intro hp
        rw [← hcast]
        apply (rangeSplitCore_pairwise_iff hult2 hn2).mp
        rw [List.pairwise_map] at hp
        refine List.Pairwise.imp_of_mem ?_ hp
        intro a b ha hb hab
        have hba := hbnd a ha
        have hbb := hbnd b hb
        omega
      · intro hgap
        rw [List.pairwise_map]
        refine List.Pairwise.imp_of_mem ?_
          ((rangeSplitCore_pairwise_iff hult2 hn2).mpr (by rw [hcast]; exact hgap))
        intro a b ha hb hab
        have hba := hbnd a ha
        have hbb := hbnd b hb
        omega
    refine ⟨_, _, hgen, hmap2, hleN, hiffN, ?_⟩
    intro hgap
    apply exists_adjacent_eq_of_not_chain _ (List.chain'_iff_pairwise.mpr hleN)
    intro hc
    exact hgap (hiffN.mp (List.chain'_iff_pairwise.mp hc))

/-- C2 (counterexample): with boundaries excluded the values are not always
strictly greater than `start`. For `start = 0`, `end = 1`, `num_splits = 2`
the first interior point equals `start` itself. -/
theorem c2_counterexample :
    generate_int64_range_splits 0 1 2 false = Except.ok ([['0'], ['0']], []) ∧
    ¬ (∀ v ∈ rangeSplitCore 0 1 2 false, 0 < v ∧ v < 1) := by
  refine ⟨by decide, ?_⟩
  decide

/-- C2 (amended): with boundaries excluded the generator returns exactly
`num_splits` values, the `i`-th (1-based) being
`start + floor((end - start) * i / (num_splits + 1))`; every value lies in
the half-open interval `[start, end)` — at least `start` (not necessarily
strictly greater, as the counterexample shows) and strictly below `end`. -/
theorem c2_amended (s e num_splits : Int) (hlt : s < e) (hn : 2 ≤ num_splits) :
    generate_int64_range_splits s e num_splits false =
      Except.ok ((rangeSplitCore s e num_splits.toNat false).map pyStrOfInt, []) ∧
    (rangeSplitCore s e num_splits.toNat false).length = num_splits.toNat ∧
    (∀ i, i < num_splits.toNat →
      (rangeSplitCore s e num_splits.toNat false).get? i =
        some (s + (((e - s).toNat * (i + 1) / (num_splits.toNat + 1) : Nat) : Int))) ∧
    (∀ v ∈ rangeSplitCore s e num_splits.toNat false, s ≤ v ∧ v < e) := by
  refine ⟨generate_int64_ok hlt hn, rangeSplitCore_length _ _ _ _, ?_, ?_⟩
  · intro i hi
    exact rangeSplitCore_excl_get hi
  · exact rangeSplitCore_excl_strict_bounds hlt

/-- C3 (counterexample): `uuid_to_int` does not reject every non-canonical
string. The 32-hex-digit string without dashes is invalid for
`is_valid_uuid`, yet `uuid.UUID` normalizes it and parses it successfully
(here to the integer 0), so no parse error is raised. -/
theorem c3_counterexample :
    is_valid_uuid "00000000000000000000000000000000".data = false ∧
    uuid_to_int "00000000000000000000000000000000".data = some 0 := by
  constructor
  · decide
  · decide

/-- C3 (amended): `uuid_to_int` normalizes its argument the way Python's
`uuid.UUID` constructor does (removing `urn:` and `uuid:` occurrences,
stripping surrounding braces, removing every dash) rather than rejecting
all non-canonical text. For any string built from hex digits and dashes it
succeeds exactly when removing the dashes leaves 32 hex digits, regardless
of dash placement; and any string whose normalized form does not have
exactly 32 characters fails with a parse error. -/
theorem c3_amended (s t : List Char)
    (hs : ∀ c ∈ s, isHexDigit c = true ∨ c = '-') :
    ((uuid_to_int s).isSome = true ↔ (s.filter (fun c => c != '-')).length = 32) ∧
    ((pyUuidNormalize t).length ≠ 32 → uuid_to_int t = none) := by
  constructor
  · rw [uuid_to_int_hex_dash hs]
    by_cases hlen : (s.filter (fun c => c != '-')).length = 32
    · rw [if_pos hlen]
      simp [hlen]
    · rw [if_neg hlen]
      simp [hlen]
  · intro hlen
    unfold uuid_to_int
    rw [if_neg hlen]

/-- C3 (witness). -/
theorem c3_amended_witness :
    (((uuid_to_int "00000000-00000000000000-0000000000".data).isSome = true ↔
      (("00000000-00000000000000-0000000000".data).filter (fun c => c != '-')).length = 32) ∧
    ((pyUuidNormalize "zzz".data).length ≠ 32 → uuid_to_int "zzz".data = none)) ∧
    (uuid_to_int "00000000-00000000000000-0000000000".data).isSome = true := by
  refine ⟨c3_amended _ _ (by decide), by decide⟩

/-- C4: on every valid canonical UUID string `x`, `uuid_to_int` reads the
32 hex digits (dashes removed) as one big-endian 128-bit unsigned integer,
and `int_to_uuid` maps that integer back to the lowercase form of `x`;
conversely `int_to_uuid` renders any `n < 2^128` as zero-padded lowercase
canonical text that `uuid_to_int` parses back to `n`, so the two functions
are exact inverses on the 128-bit domain. -/
theorem c4_uuid_int_inverses (x : List Char) (hx : is_valid_uuid x = true)
    (n : Nat) (hn : n < 2 ^ 128) :
    uuid_to_int x = some (hexVal (x.filter (fun c => c != '-'))) ∧
    int_to_uuid (hexVal (x.filter (fun c => c != '-'))) = some (pyLower x) ∧
    int_to_uuid n = some (uuidRender n) ∧
    uuid_to_int (uuidRender n) = some n := by
  obtain ⟨h1, h2, h3⟩ := uuid_roundtrip_of_valid hx
  exact ⟨h1, h3, by unfold int_to_uuid; rw [if_pos hn], uuid_to_int_uuidRender hn⟩

/-- C4 (witness). -/
theorem c4_witness :
    uuid_to_int "ABCDEF00-1234-5678-9ABC-DEF012345678".data =
      some (hexVal (("ABCDEF00-1234-5678-9ABC-DEF012345678".data).filter
        (fun c => c != '-'))) ∧
    int_to_uuid (hexVal (("ABCDEF00-1234-5678-9ABC-DEF012345678".data).filter
        (fun c => c != '-'))) =
      some (pyLower "ABCDEF00-1234-5678-9ABC-DEF012345678".data) ∧
    int_to_uuid 255 = some (uuidRender 255) ∧
    uuid_to_int (uuidRender 255) = some 255 :=
  c4_uuid_int_inverses _ (by decide) 255 (by norm_num)

/-- C5: with boundaries included both generators return exactly
`num_splits` values whose first element is the exact string for `start`
and whose last element is the exact string for `end` (for UUIDs, the
canonical lowercase rendering of the start/end integers produced by
`int_to_uuid`). -/
theorem c5_boundary_inclusive (s e num_splits : Int) (su eu : List Char)
    (si ei : Nat) (hlt : s < e) (hn : 2 ≤ num_splits)
    (hsu : is_valid_uuid su = true) (heu : is_valid_uuid eu = true)
    (hsi : uuid_to_int su = some si) (hei : uuid_to_int eu = some ei)
    (hult : si < ei) :
    (∃ vs ws, generate_int64_range_splits s e num_splits true = Except.ok (vs, ws) ∧
      vs.length = num_splits.toNat ∧ vs.head? = some (pyStrOfInt s) ∧
      vs.getLast? = some (pyStrOfInt e)) ∧
    (∃ us ws, generate_uuid_range_splits su eu num_splits true = Except.ok (us, ws) ∧
      us.length = num_splits.toNat ∧
      us.head? = some (uuidRender si) ∧ us.getLast? = some (uuidRender ei) ∧
      int_to_uuid si = some (uuidRender si) ∧ int_to_uuid ei = some (uuidRender ei)) := by
  have hn2 : 2 ≤ num_splits.toNat := by omega
  constructor
  · refine ⟨_, _, generate_int64_ok hlt hn, ?_, ?_, ?_⟩
    · rw [List.length_map, rangeSplitCore_length]
    · rw [List.head?_map, rangeSplitCore_incl_head (by omega)]
      rfl
    · rw [List.getLast?_map, rangeSplitCore_incl_last hn2]
      rfl
  · have hult2 : ((si : Nat) : Int) < ((ei : Nat) : Int) := by exact_mod_cast hult
    refine ⟨_, _, generate_uuid_ok num_splits true hsu heu hsi hei hult hn, ?_, ?_, ?_, ?_, ?_⟩
    · rw [List.length_map, rangeSplitCore_length]
    · rw [List.head?_map, rangeSplitCore_incl_head (by omega)]
      simp
    · rw [List.getLast?_map, rangeSplitCore_incl_last hn2]
      simp
    · unfold int_to_uuid
      rw [if_pos (uuid_to_int_lt hsi)]
    · unfold int_to_uuid
      rw [if_pos (uuid_to_int_lt hei)]

/-- C5 (witness). -/
theorem c5_witness :
    (∃ vs ws, generate_int64_range_splits 0 100 5 true = Except.ok (vs, ws) ∧
      vs.length = (5 : Int).toNat ∧ vs.head? = some (pyStrOfInt 0) ∧
      vs.getLast? = some (pyStrOfInt 100)) ∧
    (∃ us ws, generate_uuid_range_splits "00000000-0000-0000-0000-000000000000".data
        "00000000-0000-0000-0000-000000000010".data 5 true = Except.ok (us, ws) ∧
      us.length = (5 : Int).toNat ∧
      us.head? = some (uuidRender 0) ∧ us.getLast? = some (uuidRender 16) ∧
      int_to_uuid 0 = some (uuidRender 0) ∧ int_to_uuid 16 = some (uuidRender 16)) :=
  c5_boundary_inclusive 0 100 5 _ _ 0 16 (by norm_num) (by norm_num)
    (by decide) (by decide) (by decide) (by decide) (by norm_num)

/-- C6: classification behaviour of `detect_range_type`: case-insensitive
exact `INT64`; `STRING(n)`/`STRING(MAX)` (MAX treated as 36) classified as
`STRING_UUID` when the resolved length exceeds 35 and rejected as too
short otherwise, with a supplied sample value required to pass
canonical-UUID validation; `BYTES(n)`/`BYTES(MAX)` (MAX treated as 16)
likewise with threshold 15; `STRING`/`BYTES` types whose suffix the
parenthesis regex cannot parse yield the distinct `Could not parse`
error; every other type yields the `not supported` error. -/
theorem c6_detect_classification :
    (∀ t sv, pyUpper t = "INT64".data →
      detect_range_type t sv = (some SupportedRangeType.INT64, none)) ∧
    (∀ p ds sv, pyUpper p = "STRING".data → ds ≠ [] →
      (∀ c ∈ ds, isDigitChar c = true) →
      detect_range_type (p ++ '(' :: (ds ++ [')'])) sv =
        (if decVal ds ≤ 35 then
          (none, some ("Column length (" ++ toString (decVal ds) ++
            ") too short for UUIDs (need greater than 35)"))
        else match sv with
          | some v =>
            if is_valid_uuid v = false then (none, some (invalidUuidMsg v))
            else (some SupportedRangeType.STRING_UUID, none)
          | none => (some SupportedRangeType.STRING_UUID, none))) ∧
    (∀ p m3 sv, pyUpper p = "STRING".data → pyUpper m3 = ['M', 'A', 'X'] →
      detect_range_type (p ++ '(' :: (m3 ++ [')'])) sv =
        (match sv with
          | some v =>
            if is_valid_uuid v = false then (none, some (invalidUuidMsg v))
            else (some SupportedRangeType.STRING_UUID, none)
          | none => (some SupportedRangeType.STRING_UUID, none))) ∧
    (∀ p ds sv, pyUpper p = "BYTES".data → ds ≠ [] →
      (∀ c ∈ ds, isDigitChar c = true) →
      detect_range_type (p ++ '(' :: (ds ++ [')'])) sv =
        (if decVal ds ≤ 15 then
          (none, some ("Column length (" ++ toString (decVal ds) ++
            ") too short for UUIDs (need greater than 15)"))
        else match sv with
          | some v =>
            if is_valid_uuid v = false then (none, some (invalidUuidMsg v))
            else (some SupportedRangeType.BYTES_UUID, none)
          | none => (some SupportedRangeType.BYTES_UUID, none))) ∧
    (∀ p m3 sv, pyUpper p = "BYTES".data → pyUpper m3 = ['M', 'A', 'X'] →
      detect_range_type (p ++ '(' :: (m3 ++ [')'])) sv =
        (match sv with
          | some v =>
            if is_valid_uuid v = false then (none, some (invalidUuidMsg v))
            else (some SupportedRangeType.BYTES_UUID, none)
          | none => (some SupportedRangeType.BYTES_UUID, none))) ∧
    (∀ t sv, pyUpper t ≠ "INT64".data →
      ("STRING".data).isPrefixOf (pyUpper t) = true →
      parenArg "STRING".data t = none →
      detect_range_type t sv =
        (none, some ("Could not parse STRING type: " ++ String.mk t))) ∧
    (∀ t sv, pyUpper t ≠ "INT64".data →
      ("STRING".data).isPrefixOf (pyUpper t) = false →
      ("BYTES".data).isPrefixOf (pyUpper t) = true →
      parenArg "BYTES".data t = none →
      detect_range_type t sv =
        (none, some ("Could not parse BYTES type: " ++ String.mk t))) ∧
    (∀ t sv, pyUpper t ≠ "INT64".data →
      ("STRING".data).isPrefixOf (pyUpper t) = false →
      ("BYTES".data).isPrefixOf (pyUpper t) = false →
      detect_range_type t sv = (none, some ("Column type '" ++ String.mk t ++
        "' not supported. Supported: INT64, STRING(>35) with UUIDs, BYTES(>15) with UUIDs."))) :=
  ⟨fun _ sv h => detect_INT64 h sv,
   fun _ _ sv hp hds hall => detect_STRING_digits hp hds hall sv,
   fun _ _ sv hp hm => detect_STRING_max hp hm sv,
   fun _ _ sv hp hds hall => detect_BYTES_digits hp hds hall sv,
   fun _ _ sv hp hm => detect_BYTES_max hp hm sv,
   fun _ sv h1 h2 h3 => detect_STRING_noparse h1 h2 h3 sv,
   fun _ sv h1 h2 h3 h4 => detect_BYTES_noparse h1 h2 h3 h4 sv,
   fun _ sv h1 h2 h3 => detect_not_supported h1 h2 h3 sv⟩

/-- C6 (witness). -/
theorem c6_witness :
    detect_range_type "int64".data none = (some SupportedRangeType.INT64, none) ∧
    detect_range_type ("STRING".data ++ '(' :: (['3', '6'] ++ [')'])) none =
      (if decVal ['3', '6'] ≤ 35 then
        (none, some ("Column length (" ++ toString (decVal ['3', '6']) ++
          ") too short for UUIDs (need greater than 35)"))
      else (some SupportedRangeType.STRING_UUID, none)) ∧
    detect_range_type "TIMESTAMP".data none = (none, some ("Column type '" ++
      String.mk "TIMESTAMP".data ++
      "' not supported. Supported: INT64, STRING(>35) with UUIDs, BYTES(>15) with UUIDs.")) :=
  ⟨c6_detect_classification.1 "int64".data none (by decide),
   c6_detect_classification.2.1 "STRING".data ['3', '6'] none (by decide) (by decide)
     (by decide),
   c6_detect_classification.2.2.2.2.2.2.2 "TIMESTAMP".data none (by decide) (by decide)
     (by decide)⟩

/-- C7: the generators raise exactly on violated preconditions: with
`start ≥ end` (in the relevant domain) they fail with `Start value must be
less than end value`; otherwise with `num_splits < 2` they fail with
`Number of splits must be at least 2`; otherwise they return a result
(never a silent degenerate set). The UUID variant is considered for inputs
that pass canonical-UUID validation. -/
theorem c7_generator_preconditions (s e num_splits : Int) (incl : Bool)
    (su eu : List Char) (si ei : Nat) (hsu : is_valid_uuid su = true)
    (heu : is_valid_uuid eu = true) (hsi : uuid_to_int su = some si)
    (hei : uuid_to_int eu = some ei) :
    (s ≥ e → generate_int64_range_splits s e num_splits incl =
      Except.error "Start value must be less than end value") ∧
    (s < e → num_splits < 2 → generate_int64_range_splits s e num_splits incl =
      Except.error "Number of splits must be at least 2") ∧
    (s < e → 2 ≤ num_splits →
      ∃ vs ws, generate_int64_range_splits s e num_splits incl = Except.ok (vs, ws)) ∧
    (ei ≤ si → generate_uuid_range_splits su eu num_splits incl =
      Except.error "Start value must be less than end value") ∧
    (si < ei → num_splits < 2 → generate_uuid_range_splits su eu num_splits incl =
      Except.error "Number of splits must be at least 2") ∧
    (si < ei → 2 ≤ num_splits →
      ∃ us ws, generate_uuid_range_splits su eu num_splits incl = Except.ok (us, ws)) := by
  refine ⟨?_, ?_, ?_, ?_, ?_, ?_⟩
  · intro h
    unfold generate_int64_range_splits
    rw [if_pos h]
  · intro h1 h2
    unfold generate_int64_range_splits
    rw [if_neg (by omega), if_pos h2]
  · intro h1 h2
    exact ⟨_, _, generate_int64_ok h1 h2⟩
  · intro h
    unfold generate_uuid_range_splits
    rw [if_neg (by rw [hsu]; simp), if_neg (by rw [heu]; simp), hsi, hei]
    dsimp only
    rw [if_pos (by omega)]
  · intro h1 h2
    unfold generate_uuid_range_splits
    rw [if_neg (by rw [hsu]; simp), if_neg (by rw [heu]; simp), hsi, hei]
    dsimp only
    rw [if_neg (by omega), if_pos h2]
  · intro h1 h2
    exact ⟨_, _, generate_uuid_ok num_splits incl hsu heu hsi hei h1 h2⟩

/-- C7 (witness). -/
theorem c7_witness :
    generate_int64_range_splits 50 50 5 true =
      Except.error "Start value must be less than end value" ∧
    generate_int64_range_splits 0 100 1 true =
      Except.error "Number of splits must be at least 2" ∧
    generate_uuid_range_splits "00000000-0000-0000-0000-000000000010".data
      "00000000-0000-0000-0000-000000000000".data 5 true =
      Except.error "Start value must be less than end value" :=
  ⟨(c7_generator_preconditions 50 50 5 true
      "00000000-0000-0000-0000-000000000010".data
      "00000000-0000-0000-0000-000000000000".data 16 0 (by decide) (by decide)
      (by decide) (by decide)).1 (by norm_num),
   (c7_generator_preconditions 0 100 1 true
      "00000000-0000-0000-0000-000000000010".data
      "00000000-0000-0000-0000-000000000000".data 16 0 (by decide) (by decide)
      (by decide) (by decide)).2.1 (by norm_num) (by norm_num),
   (c7_generator_preconditions 0 100 5 true
      "00000000-0000-0000-0000-000000000010".data
      "00000000-0000-0000-0000-000000000000".data 16 0 (by decide) (by decide)
      (by decide) (by decide)).2.2.2.1 (by norm_num)⟩

/-- C8: for a single-column key schema whose column type is (case
insensitively) `INT64`, `validate_range_request` fails with the
`Invalid integer value(s)` message naming both raw inputs whenever either
bound does not parse as a Python integer, fails with `Start value must be
less than end value` when both parse but `start ≥ end`, and succeeds with
range type `INT64` and no error exactly when both parse with
`start < end`. -/
theorem c8_validate_int64 (schema : EntityKeySchema) (col : KeyColumnInfo)
    (s e : List Char) (hcomp : schema.is_composite = false)
    (hcols : schema.key_columns = [col])
    (hty : pyUpper col.spanner_type = "INT64".data) :
    ((pyIntDec s = none ∨ pyIntDec e = none) →
      validate_range_request schema s e =
        ⟨false, some SupportedRangeType.INT64,
          some ("Invalid integer value(s): start='" ++ String.mk s ++ "', end='" ++
            String.mk e ++ "'")⟩) ∧
    (∀ si ei : Int, pyIntDec s = some si → pyIntDec e = some ei → ei ≤ si →
      validate_range_request schema s e =
        ⟨false, some SupportedRangeType.INT64,
          some "Start value must be less than end value"⟩) ∧
    (∀ si ei : Int, pyIntDec s = some si → pyIntDec e = some ei → si < ei →
      validate_range_request schema s e =
        ⟨true, some SupportedRangeType.INT64, none⟩) := by
  have hic := validate_int64_core s e hcomp hcols (detect_INT64 hty (some s))
  refine ⟨?_, ?_, ?_⟩
  · intro hor
    rw [hic]
    rcases hps : pyIntDec s with _ | si <;> rcases hpe : pyIntDec e with _ | ei
    · rfl
    · rfl
    · rfl
    · rcases hor with hor | hor
      · rw [hor] at hps
        exact absurd hps (by simp)
      · rw [hor] at hpe
        exact absurd hpe (by simp)
  · intro si ei hps hpe hord
    rw [hic, hps, hpe]
    dsimp only
    rw [if_pos (by omega)]
  · intro si ei hps hpe hord
    rw [hic, hps, hpe]
    dsimp only
    rw [if_neg (by omega)]

/-- C8 (witness). -/
theorem c8_witness :
    validate_range_request ⟨"t".data, [⟨"id".data, "INT64".data, 1⟩], false⟩
        "a".data "5".data =
      ⟨false, some SupportedRangeType.INT64,
        some ("Invalid integer value(s): start='" ++ String.mk "a".data ++ "', end='" ++
          String.mk "5".data ++ "'")⟩ ∧
    validate_range_request ⟨"t".data, [⟨"id".data, "INT64".data, 1⟩], false⟩
        "10".data "5".data =
      ⟨false, some SupportedRangeType.INT64,
        some "Start value must be less than end value"⟩ ∧
    validate_range_request ⟨"t".data, [⟨"id".data, "INT64".data, 1⟩], false⟩
        "1".data "5".data = ⟨true, some SupportedRangeType.INT64, none⟩ :=
  ⟨(c8_validate_int64 _ _ _ _ rfl rfl (by decide)).1 (Or.inl (by decide)),
   (c8_validate_int64 _ _ _ _ rfl rfl (by decide)).2.1 10 5 (by decide) (by decide)
     (by norm_num),
   (c8_validate_int64 _ _ _ _ rfl rfl (by decide)).2.2 1 5 (by decide) (by decide)
     (by norm_num)⟩

/-- C9: a composite key schema (more than one key column, with
`is_composite` set accordingly, as `spanner_service` constructs it) is
rejected by `validate_range_request` with the composite-keys message and no
range type, regardless of the start and end values. -/
theorem c9_validate_composite (schema : EntityKeySchema) (s e : List Char)
    (hlen : 1 < schema.key_columns.length)
    (hcons : schema.is_composite = decide (1 < schema.key_columns.length)) :
    validate_range_request schema s e =
      ⟨false, none,
        some "Range splits are not supported for composite keys. Please add splits individually."⟩ :=
  validate_composite (by rw [hcons]; simp [hlen]) s e

/-- C9 (witness). -/
theorem c9_witness :
    validate_range_request
      ⟨"t".data, [⟨"a".data, "INT64".data, 1⟩, ⟨"b".data, "INT64".data, 2⟩], true⟩
      "1".data "5".data =
      ⟨false, none,
        some "Range splits are not supported for composite keys. Please add splits individually."⟩ :=
  c9_validate_composite _ "1".data "5".data (by decide) (by decide)

/-- C10 (counterexample): a failure on an invalid-UUID start value is a
value-level failure in the claim's sense, yet the result carries
`range_type = none`, because `validate_range_request` passes the start
value to `detect_range_type` as the sample and the failure is reported by
the detection step. -/
theorem c10_counterexample :
    validate_range_request ⟨"t".data, [⟨"id".data, "STRING(36)".data, 1⟩], false⟩
        "bad".data "00000000-0000-0000-0000-000000000010".data =
      ⟨false, none, some (invalidUuidMsg "bad".data)⟩ ∧
    is_valid_uuid "bad".data = false := by
  constructor
  · decide
  · decide

/-- C10 (amended): when type detection succeeds, every subsequent outcome
of `validate_range_request` — including the value-validation failures
(non-integer bounds for `INT64`, an invalid-UUID end value, or
`start ≥ end`) — carries the detected range type. `range_type` is `none`
exactly for schema-shape failures (composite key, no key columns) and
detection failures, and the latter include an invalid-UUID start value,
since the start value is passed to `detect_range_type` as its sample. -/
theorem c10_range_type_propagation :
    (∀ (schema : EntityKeySchema) (s e : List Char) (col : KeyColumnInfo)
      (rest : List KeyColumnInfo) (t : SupportedRangeType),
      schema.is_composite = false → schema.key_columns = col :: rest →
      detect_range_type col.spanner_type (some s) = (some t, none) →
      (validate_range_request schema s e).range_type = some t) ∧
    (∀ (schema : EntityKeySchema) (s e : List Char),
      (validate_range_request schema s e).range_type = none →
      schema.is_composite = true ∨ schema.key_columns = [] ∨
      ∃ col rest m, schema.key_columns = col :: rest ∧
        detect_range_type col.spanner_type (some s) = (none, some m)) := by
  constructor
  · intro schema s e col rest t h1 h2 hdet
    exact validate_range_type_of_detect s e h1 h2 hdet
  · intro schema s e hnone
    by_cases hcomp : schema.is_composite = true
    · exact Or.inl hcomp
    · have hcomp2 : schema.is_composite = false := by
        cases h : schema.is_composite
        · rfl
        · exact absurd h hcomp
      rcases hcols : schema.key_columns with _ | ⟨col, rest⟩
      · exact Or.inr (Or.inl rfl)
      · rcases detect_range_type_cases col.spanner_type (some s) with ⟨rt, hdet⟩ | ⟨m, hdet⟩
        · have hprop := validate_range_type_of_detect s e hcomp2 hcols hdet
          rw [hnone] at hprop
          exact absurd hprop (by simp)
        · exact Or.inr (Or.inr ⟨col, rest, m, rfl, hdet⟩)

/-- C10 (witness). -/
theorem c10_witness :
    (validate_range_request ⟨"t".data, [⟨"id".data, "INT64".data, 1⟩], false⟩
      "10".data "5".data).range_type = some SupportedRangeType.INT64 :=
  c10_range_type_propagation.1 _ "10".data "5".data ⟨"id".data, "INT64".data, 1⟩ []
    SupportedRangeType.INT64 rfl rfl (by decide)

/-- C1 (witness). -/
theorem c1_amended_witness :
    ((generate_int64_range_splits 0 100 5 false =
        Except.ok ((rangeSplitCore 0 100 (5 : Int).toNat false).map pyStrOfInt, []) ∧
      List.Pairwise (fun a b : Int => a ≤ b) (rangeSplitCore 0 100 (5 : Int).toNat false) ∧
      (List.Pairwise (fun a b : Int => a < b) (rangeSplitCore 0 100 (5 : Int).toNat false) ↔
        (5 : Int) - (if false then 1 else 0) ≤ (100 : Int) - 0) ∧
      (¬ ((5 : Int) - (if false then 1 else 0) ≤ (100 : Int) - 0) →
        ∃ i a, (rangeSplitCore 0 100 (5 : Int).toNat false).get? i = some a ∧
          (rangeSplitCore 0 100 (5 : Int).toNat false).get? (i + 1) = some a)) ∧
    (∃ us pts, generate_uuid_range_splits "00000000-0000-0000-0000-000000000000".data
        "00000000-0000-0000-0000-000000000010".data 5 false = Except.ok (us, []) ∧
      us.map uuid_to_int = pts.map some ∧
      List.Pairwise (fun a b : Nat => a ≤ b) pts ∧
      (List.Pairwise (fun a b : Nat => a < b) pts ↔
        (5 : Int) - (if false then 1 else 0) ≤ ((16 : Nat) : Int) - ((0 : Nat) : Int)) ∧
      (¬ ((5 : Int) - (if false then 1 else 0) ≤ ((16 : Nat) : Int) - ((0 : Nat) : Int)) →
        ∃ i a, pts.get? i = some a ∧ pts.get? (i + 1) = some a))) :=
  c1_amended 0 100 5 false "00000000-0000-0000-0000-000000000000".data
    "00000000-0000-0000-0000-000000000010".data 0 16 (by norm_num) (by norm_num)
    (by decide) (by decide) (by decide) (by decide) (by decide)

/-- C2 (witness). -/
theorem c2_amended_witness :
    generate_int64_range_splits 0 100 5 false =
      Except.ok ((rangeSplitCore 0 100 (5 : Int).toNat false).map pyStrOfInt, []) ∧
    (rangeSplitCore 0 100 (5 : Int).toNat false).length = (5 : Int).toNat ∧
    (∀ i, i < (5 : Int).toNat →
      (rangeSplitCore 0 100 (5 : Int).toNat false).get? i =
        some ((0 : Int) + ((((100 : Int) - 0).toNat * (i + 1) / ((5 : Int).toNat + 1) : Nat) : Int))) ∧
    (∀ v ∈ rangeSplitCore 0 100 (5 : Int).toNat false, (0 : Int) ≤ v ∧ v < 100) :=
  c2_amended 0 100 5 (by norm_num) (by norm_num)
